import Mathlib

/-!
# ClaudeCode-Orchestrator: the external-process execution contract

A shallow embedding of `simple-claude-code-mcp/utils/claude-cli.js`
(`executeClaudeCli`), of `simple-claude-code-mcp/utils/path-formatter.js`, of
the handlers of the `ClaudeCode`, `CodeReviewer` and `CodeEditor` tools
(`simple-claude-code-mcp/tools/claude-code.js`, `tools/code-reviewer.js`,
`tools/code-editor.js`), and of `SequentialThinkingServer.processThought`
(`mcp-sequentialthinking-tools/sse-server-sequential-thinking.js`).

JavaScript values are restricted to the types the tool schemas declare:
an optional property is an `Option`, a string is a `String`, a timeout is a
natural number of milliseconds.  Everything the function reads from its
surroundings (environment variables, the clock, the file system, the child
process and its events) is an explicit input, gathered in `World`; everything
it does to its surroundings (the `spawn` call, the signals it sends, what it
writes to the log file) is an explicit output, gathered in `Run`.
-/

namespace ClaudeOrchestrator

/-! ## JavaScript helpers -/

/-- Truthiness of an optional string: `undefined` and `""` are falsy. -/
def truthy : Option String → Bool
  | none => false
  | some s => s != ""

/-- An `Error` object: its `name` ("Error", "TypeError", ...) and `message`. -/
structure JsError where
  name : String
  message : String
  deriving DecidableEq, Repr

/-- The value of `String(error)`, that is `Error.prototype.toString`. -/
def JsError.toStr (e : JsError) : String :=
  if e.name = "" then e.message
  else if e.message = "" then e.name
  else e.name ++ ": " ++ e.message

/-- The value of `error.message || String(error)`. -/
def errorText (e : JsError) : String :=
  if e.message != "" then e.message else e.toStr

/-- The object made by `new Error(message)`. -/
def newError (message : String) : JsError :=
  { name := "Error", message := message }

/-- White space and line terminators, the characters `String.prototype.trim`
removes. -/
def jsIsWhiteSpace (c : Char) : Bool :=
  let n := c.toNat
  n = 0x09 || n = 0x0A || n = 0x0B || n = 0x0C || n = 0x0D || n = 0x20 ||
  n = 0xA0 || n = 0x1680 || (0x2000 ≤ n && n ≤ 0x200A) ||
  n = 0x2028 || n = 0x2029 || n = 0x202F || n = 0x205F || n = 0x3000 || n = 0xFEFF

/-- The method `String.prototype.trim`. -/
def jsTrim (s : String) : String :=
  String.mk ((s.toList.dropWhile jsIsWhiteSpace).reverse.dropWhile jsIsWhiteSpace).reverse

/-- The method `Array.prototype.join` on an array of strings. -/
def jsJoin (sep : String) (xs : List String) : String :=
  sep.intercalate xs

/-- Template interpolation `${code}` of an exit code: `null` prints as "null". -/
def codeStr : Option Int → String
  | none => "null"
  | some n => toString n

/-- Template interpolation `${b}` of a boolean. -/
def boolStr (b : Bool) : String :=
  if b then "true" else "false"

/-! ## Base64 (RFC 4648), as done by `Buffer.from(s).toString('base64')`
and undone by `base64 -d` -/

/-- The bytes of `Buffer.from(s)`: the UTF-8 encoding of the string. -/
def utf8Bytes (s : String) : List Nat :=
  (s.toList.flatMap String.utf8EncodeChar).map UInt8.toNat

/-- The base64 alphabet. -/
def b64Alphabet : List Char :=
  "ABCDEFGHIJKLMNOPQRSTUVWXYZabcdefghijklmnopqrstuvwxyz0123456789+/".toList

/-- The character of a six-bit value. -/
def b64Char (n : Nat) : Char :=
  b64Alphabet.getD n 'A'

/-- The six-bit value of a character of the alphabet. -/
def b64Val (c : Char) : Option Nat :=
  let i := b64Alphabet.indexOf c
  if i < 64 then some i else none

/-- Base64 encoding of a byte sequence, three bytes to four characters, the
last group padded with `=`. -/
def base64Encode : List Nat → List Char
  | [] => []
  | [a] => [b64Char (a / 4), b64Char (a % 4 * 16), '=', '=']
  | [a, b] => [b64Char (a / 4), b64Char (a % 4 * 16 + b / 16), b64Char (b % 16 * 4), '=']
  | a :: b :: c :: rest =>
      b64Char (a / 4) :: b64Char (a % 4 * 16 + b / 16) ::
        b64Char (b % 16 * 4 + c / 64) :: b64Char (c % 64) :: base64Encode rest

/-- Decoding of a sequence of four-character groups; `=` padding is accepted
in the last group only. -/
def base64DecodeGroups : List Char → Option (List Nat)
  | [] => some []
  | c0 :: c1 :: c2 :: c3 :: rest =>
      match b64Val c0, b64Val c1 with
      | some v0, some v1 =>
          if c2 = '=' then
            if c3 = '=' ∧ rest = [] then some [v0 * 4 + v1 / 16] else none
          else
            match b64Val c2 with
            | none => none
            | some v2 =>
                if c3 = '=' then
                  if rest = [] then some [v0 * 4 + v1 / 16, v1 % 16 * 16 + v2 / 4] else none
                else
                  match b64Val c3, base64DecodeGroups rest with
                  | some v3, some bytes =>
                      some ((v0 * 4 + v1 / 16) :: (v1 % 16 * 16 + v2 / 4) :: (v2 % 4 * 64 + v3) :: bytes)
                  | _, _ => none
      | _, _ => none
  | _ => none

/-- What `base64 -d` writes for the text it reads: newlines are skipped, any
other character outside the alphabet is an error (`none`). -/
def base64Decode (s : List Char) : Option (List Nat) :=
  base64DecodeGroups (s.filter (fun c => c != '\n'))

/-! ## The data model of `executeClaudeCli` -/

/-- The options object destructured by `executeClaudeCli`; a property that is
`undefined` is `none` and takes the default of the signature. -/
structure Options where
  prompt : Option String := none
  command : Option String := none
  allowedTools : Option (List String) := none
  timeout : Option Nat := none
  logPrefix : Option String := none
  deriving DecidableEq, Repr

/-- One element of the `content` array of a tool result. -/
structure ContentBlock where
  type : String
  text : String
  deriving DecidableEq, Repr

/-- The `metadata` object of a success result; `emptyOutput` is either absent
or `true`. -/
structure Metadata where
  exitCode : Int
  sessionId : String
  emptyOutput : Option Bool := none
  deriving DecidableEq, Repr

/-- The object returned to the caller. -/
structure ToolResult where
  content : List ContentBlock
  isError : Bool
  metadata : Option Metadata := none
  deriving DecidableEq, Repr

/-- The object `executePromise` or `timeoutPromise` resolves with. -/
structure RawResult where
  stdout : String
  stderr : String
  exitCode : Int
  error : Option String
  deriving DecidableEq, Repr

/-- What the child process does, as seen by the parent: a chunk on one of its
pipes, its termination (`exit`: the process is gone, its pipes may still be
open; the code registers no handler for it), the `close` event with the exit
code (`null`, here `none`, after a signal), and the `error` event. -/
inductive ProcEvent where
  | stdoutData (chunk : String)
  | stderrData (chunk : String)
  | exit
  | close (code : Option Int)
  | error (e : JsError)
  deriving DecidableEq, Repr

/-- A call `spawn(file, args, { stdio })`. -/
structure SpawnCall where
  file : String
  args : List String
  stdio : List String
  deriving DecidableEq, Repr

/-- Everything `executeClaudeCli` reads from its surroundings.

* `CC_USER_DIRECTORY`, `CLAUDE_EXECUTABLE_PATH`: the environment variables;
* `isWsl`: the value of `checkIfRunningInWsl()`, used in diagnostics only;
* `nowIso`: the value of `new Date().toISOString()`;
* `tempDirExists`: whether the log directory exists already;
* `fsOk n`: whether the `n`-th call that writes to the file system succeeds
  (a call that fails throws, and the `try` around it swallows the exception);
* `spawnThrows`: the exception `spawn` throws synchronously, if it does;
* `beforeDeadline`: the events of the child process before the deadline timer
  is due, in order;
* `duringGrace`: the events between the deadline and the 3000 ms grace timer;
* `uuid`: the value of `randomUUID()`.

A signal sent to a child that is still running is delivered; `kill` on a child
that is gone returns `false`. -/
structure World where
  CC_USER_DIRECTORY : Option String := none
  CLAUDE_EXECUTABLE_PATH : Option String := none
  isWsl : Bool := true
  nowIso : String := ""
  tempDirExists : Bool := true
  fsOk : Nat → Bool := fun _ => true
  spawnThrows : Option JsError := none
  beforeDeadline : List ProcEvent := []
  duringGrace : List ProcEvent := []
  uuid : String := ""

/-- The log directory and the log file: the number of writing calls made so
far, whether `mkdirSync` created the directory, and the pieces written to the
log file. -/
structure FsState where
  calls : Nat := 0
  dirCreated : Bool := false
  lines : List String := []
  deriving DecidableEq, Repr

/-- The state shared by the event handlers and the timers of one call: the
variables `stdout` and `stderr`, the log, what `executePromise` has been
resolved with (if it has), whether `Promise.race` is settled, whether the
child is still running, the flag `childProcess.killed`, and the signals
delivered. -/
structure ExecState where
  stdout : String := ""
  stderr : String := ""
  fs : FsState := {}
  executeResult : Option RawResult := none
  running : Bool := true
  killed : Bool := false
  signals : List String := []
  settled : Bool := false
  deriving DecidableEq, Repr

/-- What one call did and returned: the result, the calls of `spawn`, the
signals delivered to the child, and the file system afterwards. -/
structure Run where
  result : ToolResult
  spawnCalls : List SpawnCall := []
  signals : List String := []
  fs : FsState := {}
  deriving DecidableEq, Repr

/-! ## The log file -/

/-- The call `fs.mkdirSync(tempDir, { recursive: true })`: the state after it
and whether it returned (`true`) or threw (`false`). -/
def mkdirSync (w : World) (fs : FsState) : FsState × Bool :=
  if w.fsOk fs.calls then ({ fs with calls := fs.calls + 1, dirCreated := true }, true)
  else ({ fs with calls := fs.calls + 1 }, false)

/-- The call `fs.writeFileSync(logFile, piece)`, which replaces the content of
the file. -/
def writeFileSync (w : World) (fs : FsState) (piece : String) : FsState × Bool :=
  if w.fsOk fs.calls then ({ fs with calls := fs.calls + 1, lines := [piece] }, true)
  else ({ fs with calls := fs.calls + 1 }, false)

/-- The call `fs.appendFileSync(logFile, piece)`. -/
def appendFileSync (w : World) (fs : FsState) (piece : String) : FsState × Bool :=
  if w.fsOk fs.calls then ({ fs with calls := fs.calls + 1, lines := fs.lines ++ [piece] }, true)
  else ({ fs with calls := fs.calls + 1 }, false)

/-- The statement `try { fs.appendFileSync(logFile, piece) } catch (error) { ... }`:
an exception is reported on the console and swallowed. -/
def tryAppend (w : World) (fs : FsState) (piece : String) : FsState :=
  (appendFileSync w fs piece).1

/-- Several `appendFileSync` calls in one `try` block: the first that throws
skips the rest. -/
def tryAppendAll (w : World) (fs : FsState) : List String → FsState
  | [] => fs
  | piece :: rest =>
      match appendFileSync w fs piece with
      | (fs1, true) => tryAppendAll w fs1 rest
      | (fs1, false) => fs1

/-- The first `try` block: create the log directory unless it exists. -/
def createTempDir (w : World) (fs : FsState) : FsState :=
  if !w.tempDirExists then (mkdirSync w fs).1 else fs

/-- The second `try` block: start the log file and write its header. -/
def writeLogHeader (w : World) (fs : FsState) (userDirectory claudePath : String)
    (allowedTools : List String) : FsState :=
  match writeFileSync w fs ("Starting Claude Code execution at " ++ w.nowIso ++ "\n") with
  | (fs1, false) => fs1
  | (fs1, true) =>
      tryAppendAll w fs1
        [ "WSL: " ++ boolStr w.isWsl ++ "\n",
          "User directory: " ++ userDirectory ++ "\n",
          "Claude path: " ++ claudePath ++ "\n",
          "Allowed tools: " ++ jsJoin ", " allowedTools ++ "\n" ]

/-! ## Building the command -/

/-- The text `Buffer.from(prompt).toString('base64')`. -/
def base64Prompt (prompt : String) : String :=
  String.mk (base64Encode (utf8Bytes prompt))

/-- The part of the prompt command before the encoded prompt. -/
def promptCommandHead (userDirectory : String) : String :=
  "export PATH=\"/path/to/node/bin:$PATH\" && cd \"" ++ userDirectory ++ "\" && echo \""

/-- The part of the prompt command after the encoded prompt. -/
def promptCommandTail (claudePath toolsString : String) : String :=
  "\" | base64 -d | " ++ claudePath ++ " -p /dev/stdin --allowedTools \"" ++ toolsString ++ "\""

/-- The statement that assigns `bashCommand`, or throws when neither a prompt
nor a command is given. -/
def buildCommand (userDirectory claudePath : String) (prompt command : Option String)
    (allowedTools : List String) : Except JsError String :=
  if truthy prompt then
    let toolsString := jsJoin "," allowedTools
    .ok (promptCommandHead userDirectory ++ base64Prompt (prompt.getD "") ++
      promptCommandTail claudePath toolsString)
  else if truthy command then
    .ok ("export PATH=\"/path/to/node/bin:$PATH\" && cd \"" ++ userDirectory ++ "\" && " ++
      claudePath ++ " " ++ command.getD "")
  else
    .error (newError "Either prompt or command must be provided")

/-! ## Formatting the result -/

/-- The value returned after `Promise.race`, for the object the race resolved
with. -/
def formatResult (logPrefix : String) (w : World) (result : RawResult) : ToolResult :=
  if truthy result.error then
    { content := [{ type := "text",
                    text := "Error executing Claude Code: " ++ result.error.getD "" ++ "\n\n" ++
                      result.stderr }],
      isError := true }
  else if jsTrim result.stdout = "" then
    if logPrefix = "code-editor" then
      { content := [{ type := "text", text := "(no content)\n" }],
        isError := false,
        metadata := some { exitCode := result.exitCode, sessionId := w.uuid } }
    else
      { content := [{ type := "text",
                      text := "The query was processed but no results were returned. Please try again with more specific details or as a new query instead of a follow-up." }],
        isError := false,
        metadata := some { exitCode := result.exitCode, sessionId := w.uuid,
                           emptyOutput := some true } }
  else
    { content := [{ type := "text", text := result.stdout }],
      isError := false,
      metadata := some { exitCode := result.exitCode, sessionId := w.uuid } }

/-- The log writes made while the result is formatted. -/
def logResult (w : World) (result : RawResult) (fs : FsState) : FsState :=
  if truthy result.error then
    tryAppend w fs ("Command failed: " ++ result.error.getD "" ++ "\n")
  else
    let fs1 := tryAppend w fs "Command completed successfully\n"
    if jsTrim result.stdout = "" then
      tryAppend w fs1 "Warning: Command produced no output\n"
    else fs1

/-- The result returned by the `catch` of the whole function body. -/
def caughtResult (e : JsError) : ToolResult :=
  { content := [{ type := "text", text := "Error: " ++ errorText e }], isError := true }

/-! ## The child process, the two promises and the timers -/

/-- The call `resolve(result)` of `executePromise`.  Only the first call has
an effect; if the race is still open, this settles it, the deadline timer is
cleared, and the function goes on to format `result`. -/
def resolveExecute (w : World) (st : ExecState) (result : RawResult) : ExecState :=
  match st.executeResult with
  | some _ => st
  | none =>
      if st.settled then { st with executeResult := some result }
      else { st with executeResult := some result, settled := true,
                     fs := logResult w result st.fs }

/-- The handlers registered on the child process and its pipes. -/
def onEvent (w : World) (st : ExecState) : ProcEvent → ExecState
  | .stdoutData chunk =>
      { st with stdout := st.stdout ++ chunk,
                fs := tryAppend w st.fs ("[STDOUT]: " ++ chunk) }
  | .stderrData chunk =>
      { st with stderr := st.stderr ++ chunk,
                fs := tryAppend w st.fs ("[STDERR]: " ++ chunk) }
  | .exit => { st with running := false }
  | .close code =>
      let st1 := { st with running := false,
                           fs := tryAppend w st.fs
                             ("Process exited with code " ++ codeStr code ++ "\n") }
      resolveExecute w st1
        { stdout := st1.stdout,
          stderr := st1.stderr,
          exitCode := code.getD 0,
          error := if code ≠ some 0 then some ("Process exited with code " ++ codeStr code)
                   else none }
  | .error e =>
      let st1 := { st with running := false,
                           fs := tryAppend w st.fs ("Process error: " ++ e.message ++ "\n") }
      resolveExecute w st1
        { stdout := st1.stdout,
          stderr := st1.stderr ++ "\n" ++ e.message,
          exitCode := 1,
          error := some ("Failed to execute command: " ++ e.message) }

/-- The handlers run on a sequence of events, in order. -/
def runEvents (w : World) (st : ExecState) (events : List ProcEvent) : ExecState :=
  events.foldl (onEvent w) st

/-- The call `childProcess.kill(signal)`: a child that is still running gets
the signal and `childProcess.killed` becomes `true`; for a child that is gone
nothing happens. -/
def kill (st : ExecState) (signal : String) : ExecState :=
  if st.running then { st with killed := true, signals := st.signals ++ [signal] }
  else st

/-- The object `timeoutPromise` resolves with. -/
def timeoutResult (timeout : Nat) : RawResult :=
  { stdout := "",
    stderr := "Command execution timed out.",
    exitCode := 0,
    error := some ("Command timed out after " ++ toString timeout ++ "ms") }

/-- The callback of the deadline timer: log, send SIGTERM, start the grace
timer, resolve `timeoutPromise`; if the race is still open this settles it
and the function goes on to format the timed-out result. -/
def onDeadline (timeout : Nat) (w : World) (st : ExecState) : ExecState :=
  let st1 := { st with
    fs := tryAppend w st.fs ("Command execution timed out after " ++ toString timeout ++ "ms\n") }
  let st2 := kill st1 "SIGTERM"
  if st2.settled then st2
  else { st2 with settled := true, fs := logResult w (timeoutResult timeout) st2.fs }

/-- The callback of the grace timer, 3000 ms after the deadline. -/
def onGrace (st : ExecState) : ExecState :=
  if !st.killed then kill st "SIGKILL" else st

/-- The timers of one call.  The deadline timer is cleared when
`executePromise` is resolved before it is due; otherwise it fires, the events
of the grace period follow, and the grace timer fires. -/
def runTimers (timeout : Nat) (w : World) (st : ExecState) : ExecState :=
  if st.executeResult.isSome then st
  else onGrace (runEvents w (onDeadline timeout w st) w.duringGrace)

/-- The value of `await Promise.race([executePromise, timeoutPromise])`, given
the state when the deadline is due: the promise that was resolved first. -/
def raceResult (timeout : Nat) (st : ExecState) : RawResult :=
  match st.executeResult with
  | some result => result
  | none => timeoutResult timeout

/-! ## `executeClaudeCli` -/

/-- The value `process.env.CC_USER_DIRECTORY || "/path/to/project/directory"`. -/
def userDirectory (w : World) : String :=
  if truthy w.CC_USER_DIRECTORY then w.CC_USER_DIRECTORY.getD ""
  else "/path/to/project/directory"

/-- The value `process.env.CLAUDE_EXECUTABLE_PATH || "/path/to/claude/executable"`. -/
def claudePath (w : World) : String :=
  if truthy w.CLAUDE_EXECUTABLE_PATH then w.CLAUDE_EXECUTABLE_PATH.getD ""
  else "/path/to/claude/executable"

/-- The function `executeClaudeCli`.  The body is one `try` block whose
`catch` turns an exception into `caughtResult`. -/
def executeClaudeCli (o : Options) (w : World) : Run :=
  let allowedTools := o.allowedTools.getD []
  let timeout := o.timeout.getD 900000
  let logPrefix := o.logPrefix.getD "claude-code"
  let fs0 := createTempDir w {}
  let fs1 := writeLogHeader w fs0 (userDirectory w) (claudePath w) allowedTools
  match buildCommand (userDirectory w) (claudePath w) o.prompt o.command allowedTools with
  | .error e => { result := caughtResult e, fs := fs1 }
  | .ok bashCommand =>
      let fs2 := tryAppend w fs1 ("Command: " ++ bashCommand ++ "\n")
      let call : SpawnCall :=
        { file := "bash", args := ["-c", bashCommand], stdio := ["ignore", "pipe", "pipe"] }
      match w.spawnThrows with
      | some e => { result := caughtResult e, spawnCalls := [call], fs := fs2 }
      | none =>
          let st1 := runEvents w { fs := fs2 } w.beforeDeadline
          let st2 := runTimers timeout w st1
          { result := formatResult logPrefix w (raceResult timeout st1),
            spawnCalls := [call],
            signals := st2.signals,
            fs := st2.fs }

/-! ## `utils/path-formatter.js` -/

/-- The function `formatClaudeCodePath`. -/
def formatClaudeCodePath (filePath : String) : String :=
  if filePath = "" then ""
  else
    let cleanPath :=
      if filePath.toList.head? = some '/' then String.mk (filePath.toList.drop 1) else filePath
    if cleanPath.toList.head? = some '@' then cleanPath
    else "@" ++ cleanPath

/-- The regular expressions used by `formatPathsInText`: a character, a
character class, the assertion `\b`, sequence, alternative, and the greedy
star.  `x?` is `alt x empty` and `x+` is `seq x (star x)`. -/
inductive Re where
  | empty
  | chr (c : Char)
  | cls (p : Char → Bool)
  | wordB
  | seq (a b : Re)
  | alt (a b : Re)
  | star (a : Re)

/-- The class `\w`, which decides `\b`. -/
def isWordChar (c : Char) : Bool :=
  c.isAlphanum || c = '_'

/-- The class `[a-zA-Z0-9_-]`. -/
def isSegChar (c : Char) : Bool :=
  c.isAlphanum || c = '_' || c = '-'

/-- Whether the character at a position (if there is one) is a word
character. -/
def isWordAt : Option Char → Bool
  | none => false
  | some c => isWordChar c

/-- A continuation of the backtracking matcher: given the character before
the current position and the rest of the input, the rest of the input after
the whole match, or `none` when the match fails. -/
abbrev Cont := Option Char → List Char → Option (List Char)

/-- Greedy iteration of a matcher `m`: one more iteration that consumes input
is tried first, then the continuation. -/
def starLoop (m : Cont → Cont) : Nat → Cont → Cont
  | 0, k, prev, s => k prev s
  | n + 1, k, prev, s =>
      match m (fun prev1 s1 =>
          if s1.length < s.length then starLoop m n k prev1 s1 else none) prev s with
      | some r => some r
      | none => k prev s

/-- The backtracking matcher of ECMAScript for `Re`: alternatives are tried
left to right, the star is greedy. -/
def Re.run : Re → Cont → Cont
  | .empty, k, prev, s => k prev s
  | .chr c, k, _, s =>
      match s with
      | d :: t => if d = c then k (some d) t else none
      | [] => none
  | .cls p, k, _, s =>
      match s with
      | d :: t => if p d then k (some d) t else none
      | [] => none
  | .wordB, k, prev, s =>
      if isWordAt prev != isWordAt s.head? then k prev s else none
  | .seq a b, k, prev, s => a.run (b.run k) prev s
  | .alt a b, k, prev, s =>
      match a.run k prev s with
      | some r => some r
      | none => b.run k prev s
  | .star a, k, prev, s => starLoop a.run s.length k prev s

/-- The match of `re` that starts at the current position, if there is one:
the matched text and the rest of the input. -/
def Re.matchAt (re : Re) (prev : Option Char) (s : List Char) : Option (List Char × List Char) :=
  match re.run (fun _ rest => some rest) prev s with
  | some rest => some (s.take (s.length - rest.length), rest)
  | none => none

/-- The method `String.prototype.replace` with a global regular expression and
a callback: the input is scanned from left to right, each match is replaced
by the callback's value and the scan goes on after the match.  The first
argument bounds the number of steps; `s.length + 1` is enough. -/
def replaceFrom (re : Re) (f : String → String) : Nat → Option Char → List Char → List Char
  | 0, _, s => s
  | n + 1, prev, s =>
      match re.matchAt prev s with
      | some (m, rest) =>
          match m.getLast?, s with
          | some last, _ => (f (String.mk m)).toList ++ replaceFrom re f n (some last) rest
          | none, c :: t => (f "").toList ++ c :: replaceFrom re f n (some c) t
          | none, [] => (f "").toList
      | none =>
          match s with
          | c :: t => c :: replaceFrom re f n (some c) t
          | [] => []

/-- A sequence of regular expressions. -/
def Re.seqs : List Re → Re
  | [] => .empty
  | [a] => a
  | a :: rest => .seq a (Re.seqs rest)

/-- The alternatives of a list, in order. -/
def Re.alts : List Re → Re
  | [] => .empty
  | [a] => a
  | a :: rest => .alt a (Re.alts rest)

/-- The literal text `t`. -/
def Re.lit (t : String) : Re :=
  Re.seqs (t.toList.map Re.chr)

/-- The expression `x+`. -/
def Re.plus (a : Re) : Re :=
  .seq a (.star a)

/-- The expression `x?`. -/
def Re.opt (a : Re) : Re :=
  .alt a .empty

/-- The file extensions of `pathPattern`, in the order of the source. -/
def pathExtensions : List String :=
  ["js", "jsx", "ts", "tsx", "py", "java", "cpp", "c", "h", "go", "rb", "php", "swift", "kt",
   "rs", "vue", "svelte", "json", "xml", "yaml", "yml", "md", "txt", "css", "scss", "less",
   "html"]

/-- The expression `pathPattern`:
`\b(\.\/)?([a-zA-Z0-9_-]+\/)*[a-zA-Z0-9_-]+\.(js|jsx|...|html)\b`. -/
def pathPattern : Re :=
  Re.seqs
    [ .wordB,
      Re.opt (Re.lit "./"),
      .star (.seq (Re.plus (.cls isSegChar)) (.chr '/')),
      Re.plus (.cls isSegChar),
      .chr '.',
      Re.alts (pathExtensions.map Re.lit),
      .wordB ]

/-- The callback of the `replace` in `formatPathsInText`. -/
def formatMatch (m : String) : String :=
  if m.toList.head? = some '@' || ("://".toList <:+: m.toList) then m
  else formatClaudeCodePath m

/-- The function `formatPathsInText`, called with the text only, as every
caller in the repository does: `knownPaths` is its default, the empty array,
and the `forEach` over it does nothing. -/
def formatPathsInText (text : String) : String :=
  if text = "" then ""
  else String.mk (replaceFrom pathPattern formatMatch (text.length + 1) none text.toList)

/-! ## `tools/claude-code.js` -/

/-- The arguments of the `ClaudeCode` tool. -/
structure ClaudeCodeArgs where
  prompt : Option String := none
  command : Option String := none
  allowedTools : Option (List String) := none
  timeout : Option Nat := none
  deriving DecidableEq, Repr

namespace claudeCodeTool

/-- The function `claudeCodeTool.handler`.  Its body is one `try` block whose
`catch` turns an exception into `caughtResult`. -/
def handler (args : ClaudeCodeArgs) (w : World) : Run :=
  let prompt := args.prompt
  let command := args.command
  let allowedTools := args.allowedTools.getD ["Bash", "Read", "Edit"]
  let timeout :=
    match args.timeout with
    | some t => if t = 0 then 180000 else t
    | none => 180000
  if !truthy prompt && !truthy command then
    { result := caughtResult (newError "Either prompt or command must be provided") }
  else
    let prompt1 := if truthy prompt then some (formatPathsInText (prompt.getD "")) else prompt
    executeClaudeCli
      { prompt := prompt1,
        command := command,
        allowedTools := some allowedTools,
        timeout := some timeout,
        logPrefix := some "claude-code" } w

end claudeCodeTool

/-! ## Vocabulary of the specification -/

/-- Whether an event resolves `executePromise`: `close` and `error` do. -/
def ProcEvent.resolves : ProcEvent → Bool
  | .close _ => true
  | .error _ => true
  | _ => false

/-- The text captured on stdout from a sequence of events: its stdout chunks,
concatenated in order. -/
def capturedStdout : List ProcEvent → String
  | [] => ""
  | .stdoutData chunk :: rest => chunk ++ capturedStdout rest
  | _ :: rest => capturedStdout rest

/-- The text captured on stderr from a sequence of events. -/
def capturedStderr : List ProcEvent → String
  | [] => ""
  | .stderrData chunk :: rest => chunk ++ capturedStderr rest
  | _ :: rest => capturedStderr rest

/-- The first event that resolves `executePromise`. -/
def firstResolving (events : List ProcEvent) : Option ProcEvent :=
  events.find? ProcEvent.resolves

/-- The characters `A-Z`, `a-z`, `0-9`, `+`, `/` and `=`. -/
def isBase64Char (c : Char) : Bool :=
  (65 ≤ c.toNat && c.toNat ≤ 90) || (97 ≤ c.toNat && c.toNat ≤ 122) ||
  (48 ≤ c.toNat && c.toNat ≤ 57) || c = '+' || c = '/' || c = '='

/-- The shell metacharacters named by the specification: double quote,
single quote, backtick, `$`, `;`, `|` and newline. -/
def shellMetaChars : List Char :=
  [Char.ofNat 34, Char.ofNat 39, Char.ofNat 96, '$', ';', '|', '\n']

/-! ## More of `utils/path-formatter.js` -/

/-- The function `formatClaudeCodePaths` on an array of strings. -/
def formatClaudeCodePaths (filePaths : List String) : List String :=
  filePaths.map formatClaudeCodePath

/-- The function `isClaudeCodePath`, as a condition: the path is non-empty and
starts with `@`. -/
def isClaudeCodePath (path : String) : Bool :=
  path != "" && path.toList.head? = some '@'

/-- The function `extractFilePath`. -/
def extractFilePath (claudeCodePath : String) : String :=
  if claudeCodePath = "" then ""
  else if claudeCodePath.toList.head? = some '@' then String.mk (claudeCodePath.toList.drop 1)
  else claudeCodePath

/-- The path `p` with one leading `/` removed if present. -/
def withoutLeadingSlash (p : String) : String :=
  match p.toList with
  | '/' :: rest => String.mk rest
  | _ => p

/-- Whether a text starts with the character `c`. -/
def startsWithChar (c : Char) (s : String) : Prop :=
  ∃ rest : List Char, s.toList = c :: rest

/-! ## More vocabulary of the specification -/

/-- Two states of a call agree on everything but the log: the captured
output, the promise, the race, the child and the signals. -/
def ExecState.sameOutcome (a b : ExecState) : Prop :=
  a.stdout = b.stdout ∧ a.stderr = b.stderr ∧ a.executeResult = b.executeResult ∧
  a.running = b.running ∧ a.killed = b.killed ∧ a.signals = b.signals ∧ a.settled = b.settled

/-! ## The words a shell makes of a command

The command line is run by `bash -c`.  What the executable receives as its
arguments is decided by the shell's word splitting and quote removal, which
are not part of the repository; they are given here for commands made of
blanks, plain characters and double-quoted parts, after the POSIX rules. -/

/-- The state of the shell while it reads a command: the words finished so
far, the word being read (if one is), whether a double-quoted part is open,
and whether the last character in it was a backslash. -/
structure ShellState where
  words : List String := []
  cur : Option (List Char) := none
  inQuotes : Bool := false
  escaped : Bool := false
  deriving DecidableEq, Repr

/-- The characters that keep a special meaning inside double quotes: the
double quote, `$`, the backtick and the backslash. -/
def isQuoteSpecial (c : Char) : Bool :=
  c = Char.ofNat 34 || c = '$' || c = Char.ofNat 96 || c = Char.ofNat 92

/-- The characters that stand for themselves outside quotes, as far as the
commands built here need them. -/
def isPlainShellChar (c : Char) : Bool :=
  c.isAlphanum || c = '-' || c = '/' || c = '.' || c = '_' || c = ',' || c = ':' ||
  c = '+' || c = '@' || c = '%'

/-- The words finished so far together with the word being read. -/
def ShellState.allWords (s : ShellState) : List String :=
  match s.cur with
  | some w => s.words ++ [String.mk w]
  | none => s.words

/-- One character read by the shell.  Inside double quotes a backslash
escapes `$`, the backtick, the double quote and the backslash, removes a
newline, and is kept before any other character; `$` and the backtick start
an expansion, which is outside this description (`none`), as is every
unquoted character that is neither a blank nor plain. -/
def shellStep (st : Option ShellState) (c : Char) : Option ShellState :=
  match st with
  | none => none
  | some s =>
      if s.inQuotes then
        if s.escaped then
          if isQuoteSpecial c then
            some { s with cur := some (s.cur.getD [] ++ [c]), escaped := false }
          else if c = '\n' then some { s with escaped := false }
          else some { s with cur := some (s.cur.getD [] ++ [Char.ofNat 92, c]), escaped := false }
        else if c = Char.ofNat 34 then some { s with inQuotes := false }
        else if c = Char.ofNat 92 then some { s with escaped := true }
        else if c = '$' || c = Char.ofNat 96 then none
        else some { s with cur := some (s.cur.getD [] ++ [c]) }
      else if c = ' ' || c = '\t' then some { s with words := s.allWords, cur := none }
      else if c = Char.ofNat 34 then some { s with cur := some (s.cur.getD []), inQuotes := true }
      else if isPlainShellChar c then some { s with cur := some (s.cur.getD [] ++ [c]) }
      else none

/-- The words of a simple command, or `none` when the text leaves the
fragment described by `shellStep` or ends inside a quoted part. -/
def shellWords (text : String) : Option (List String) :=
  match text.toList.foldl shellStep (some {}) with
  | some s => if s.inQuotes then none else some s.allWords
  | none => none

/-- The text that follows the executable path in the prompt command. -/
def claudeArguments (toolsString : String) : String :=
  " -p /dev/stdin --allowedTools \"" ++ toolsString ++ "\""

/-! ## More JavaScript helpers -/

/-- A value made by `JSON.parse`; a number is kept as its text. -/
inductive Json where
  | null
  | bool (b : Bool)
  | num (text : String)
  | str (s : String)
  | arr (items : List Json)
  | obj (fields : List (String × Json))

/-- What a tool handler reads from the host besides the `World` of
`executeClaudeCli`: the function `JSON.parse`, and the value of
`process.cwd()` or the exception it throws. -/
structure Host where
  jsonParse : String → Except JsError Json
  cwd : Except JsError String := .ok "/"

/-- The text before and after the first occurrence of `pat`, if there is
one. -/
def splitAtFirst (pat : List Char) : List Char → Option (List Char × List Char)
  | [] => if pat = [] then some ([], []) else none
  | c :: rest =>
      if pat.isPrefixOf (c :: rest) then some ([], (c :: rest).drop pat.length)
      else
        match splitAtFirst pat rest with
        | some (before, after) => some (c :: before, after)
        | none => none

/-- The replacement text of `String.prototype.replace` for a replacement
string, with no capture groups: `$$` is `$`, `$&` the matched text, the
dollar sign with a backtick the text before the match, the dollar sign with
an apostrophe the text after it; any other `$` stands for itself. -/
def getSubstitution (matched before after : List Char) : List Char → List Char
  | [] => []
  | [c] => [c]
  | c :: d :: rest =>
      if c = '$' then
        if d = '$' then '$' :: getSubstitution matched before after rest
        else if d = '&' then matched ++ getSubstitution matched before after rest
        else if d = Char.ofNat 96 then before ++ getSubstitution matched before after rest
        else if d = Char.ofNat 39 then after ++ getSubstitution matched before after rest
        else c :: getSubstitution matched before after (d :: rest)
      else c :: getSubstitution matched before after (d :: rest)

/-- The method `String.prototype.replace` with a string pattern and a
replacement string: the first occurrence of the pattern is replaced. -/
def jsReplace (s pattern replacement : String) : String :=
  match splitAtFirst pattern.toList s.toList with
  | none => s
  | some (before, after) =>
      String.mk (before ++ getSubstitution pattern.toList before after replacement.toList ++ after)

/-- The call `filePaths.replace(/\\(?!["\\/bfnrt])/g, '\\\\')`: every
backslash that is not followed by one of `"`, a backslash, `/`, `b`, `f`,
`n`, `r`, `t` is doubled. -/
def fixBackslashes : List Char → List Char
  | [] => []
  | c :: rest =>
      if c = Char.ofNat 92 then
        match rest with
        | d :: _ =>
            if d = Char.ofNat 34 || d = Char.ofNat 92 || d = '/' || d = 'b' || d = 'f' ||
                d = 'n' || d = 'r' || d = 't' then
              c :: fixBackslashes rest
            else c :: c :: fixBackslashes rest
        | [] => [c, c]
      else c :: fixBackslashes rest

/-- The call `s.replace(/\\\\/g, '/')`: every pair of backslashes, from the
left, becomes `/`. -/
def replaceBackslashPairs : List Char → List Char
  | [] => []
  | [c] => [c]
  | c :: d :: rest =>
      if c = Char.ofNat 92 ∧ d = Char.ofNat 92 then '/' :: replaceBackslashPairs rest
      else c :: replaceBackslashPairs (d :: rest)

/-- The call `s.replace(/\\/g, '/')`: every backslash becomes `/`. -/
def replaceBackslashes (s : List Char) : List Char :=
  s.map (fun c => if c = Char.ofNat 92 then '/' else c)

/-! ## `tools/code-reviewer.js` -/

/-- The constant `CODE_REVIEWER_PROMPT`. -/
def CODE_REVIEWER_PROMPT : String :=
  "You are a code reviewer. Provide concise but comprehensive feedback by analyzing the code against its implementation plan.\n" ++
  "\n" ++
  "IMPORTANT: You must run the following checks yourself:\n" ++
  "1. **TypeScript Check**: For TypeScript files, run `npx tsc --noEmit` using the Bash tool to identify type errors\n" ++
  "2. **Git Diff**: Use `git diff` and `git diff --staged` to see exactly what changes were made\n" ++
  "\n" ++
  "REVIEW APPROACH:\n" ++
  "1. Verify that the code implements all requirements in the plan\n" ++
  "2. Assess code quality, efficiency, and maintainability\n" ++
  "3. Look for potential bugs, edge cases, and optimization opportunities\n" ++
  "4. Validate that the implementation properly integrates with existing code\n" ++
  "5. Provide specific, actionable feedback with clear examples\n" ++
  "6. Consider relationships between files and how they work together\n" ++
  "7. Use WebSearch to verify code against latest documentation and best practices when applicable\n" ++
  "\n" ++
  "IMPORTANT: When reviewing code that references libraries, frameworks, or APIs, use the WebSearch tool to verify that implementations follow current best practices and documentation. For example, when reviewing React code, search for current React documentation to verify hooks usage, component patterns, etc.\n" ++
  "\n" ++
  "After collecting this information, provide a focused review covering:\n" ++
  "\n" ++
  "1. **Implementation Completeness**: Does the code fully implement the plan?\n" ++
  "2. **Code Quality**: Is the code clear, efficient, and maintainable?\n" ++
  "3. **Critical Issues** [HIGH]: Type errors, bugs, security vulnerabilities that must be addressed\n" ++
  "4. **Potential Issues**: Are there any bugs, edge cases, or performance concerns?\n" ++
  "5. **Security & Best Practices**: Does the code follow industry best practices?\n" ++
  "6. **Cross-file Consistency**: Are patterns and practices consistent across files?\n" ++
  "7. **Documentation Compliance**: Verify code follows latest documentation using WebSearch\n" ++
  "8. **Important Improvements** [MEDIUM]: Performance, maintainability, best practices that should be considered\n" ++
  "9. **Optional Enhancements** [LOW]: Code style, minor optimizations\n" ++
  "\n" ++
  "IMPORTANT: These suggestions are PURELY suggestions and should be taken with a grain of salt UNLESS they are directly related to the implementation plan and marked as IMPORTANT/HIGHLY RECOMMENDED.\n" ++
  "\n" ++
  "Format each issue as:\n" ++
  "- [LEVEL] Brief description: Specific fix recommendation\n" ++
  "\n" ++
  "Focus on the actual changes made, not the entire file. Be direct and actionable.\n" ++
  "\n" ++
  "IMPLEMENTATION PLAN:\n" ++
  "\x7b\x7bIMPLEMENTATION_PLAN\x7d\x7d\n" ++
  "\n" ++
  "\x7b\x7bREVIEW_FOCUS\x7d\x7d\n" ++
  "\n" ++
  "Files to review:\n" ++
  "\x7b\x7bFILES_TO_REVIEW\x7d\x7d"

/-- The constant `CODE_REVIEWER_ALLOWED_TOOLS`. -/
def CODE_REVIEWER_ALLOWED_TOOLS : List String :=
  ["Read", "Glob", "Grep", "LS", "Bash", "Task", "WebFetch", "Batch", "TodoRead", "TodoWrite",
   "WebSearch"]

/-- The arguments of the `CodeReviewer` tool.  `filePaths` is any value: the
schema asks for an array of strings, the SSE transport may send a string. -/
structure CodeReviewerArgs where
  filePaths : Option Json := none
  implementationPlan : Option String := none
  reviewFocus : Option String := none
  timeout : Option Nat := none

namespace codeReviewerTool

/-- The first statements of the handler: a string `filePaths` is parsed as
JSON, a second time with its backslashes fixed when the first parse fails. -/
def parseFilePaths (host : Host) (filePaths : Option Json) : Except JsError (Option Json) :=
  match filePaths with
  | some (.str s) =>
      match host.jsonParse s with
      | .ok v => .ok (some v)
      | .error _ =>
          match host.jsonParse (String.mk (fixBackslashes s.toList)) with
          | .ok v => .ok (some v)
          | .error _ =>
              .error (newError
                "Invalid filePaths format - expected array or valid JSON array string")
  | other => .ok other

/-- The callback of `filePaths.map` that cleans one path; an element that is
not a string has no method `replace`. -/
def cleanFilePath : Json → Except JsError String
  | .str s => .ok (String.mk (replaceBackslashes (replaceBackslashPairs s.toList)))
  | .null =>
      .error { name := "TypeError",
               message := "Cannot read properties of null (reading 'replace')" }
  | _ => .error { name := "TypeError", message := "filePath.replace is not a function" }

/-- The array `filePaths.map(cleanFilePath)`; the first exception ends it. -/
def cleanFilePaths : List Json → Except JsError (List String)
  | [] => .ok []
  | item :: rest =>
      match cleanFilePath item with
      | .error e => .error e
      | .ok p =>
          match cleanFilePaths rest with
          | .error e => .error e
          | .ok ps => .ok (p :: ps)

/-- The lines `FILE <index + 1>: <path>`, from the index `start`. -/
def filesList (start : Nat) : List String → List String
  | [] => []
  | path :: rest => ("FILE " ++ toString (start + 1) ++ ": " ++ path) :: filesList (start + 1) rest

/-- The body of the `try` block of the handler.  The test `!filePaths ||
!Array.isArray(filePaths) || filePaths.length === 0 || !implementationPlan`
fails, and the review goes on, exactly when `filePaths` is a non-empty array
and `implementationPlan` is truthy. -/
def tryBlock (args : CodeReviewerArgs) (host : Host) (w : World) : Except JsError Run :=
  match (if truthy w.CC_USER_DIRECTORY then .ok (w.CC_USER_DIRECTORY.getD "") else host.cwd) with
  | .error e => .error e
  | .ok _ =>
      match parseFilePaths host args.filePaths with
      | .error e => .error e
      | .ok filePaths =>
          let implementationPlan := args.implementationPlan
          let reviewFocus := if truthy args.reviewFocus then args.reviewFocus.getD "" else ""
          let timeout :=
            match args.timeout with
            | some t => if t = 0 then 900000 else t
            | none => 900000
          match filePaths with
          | some (.arr (item :: items)) =>
              if !truthy implementationPlan then
                .error (newError
                  "Both filePaths (non-empty array) and implementationPlan must be provided")
              else
                match cleanFilePaths (item :: items) with
                | .error e => .error e
                | .ok cleanedFilePaths =>
                    let formattedFilePaths := formatClaudeCodePaths cleanedFilePaths
                    let reviewFocusSection :=
                      if reviewFocus != "" then "REVIEW FOCUS:\n" ++ reviewFocus ++ "\n" else ""
                    let filesListFormatted := jsJoin "\n\n" (filesList 0 formattedFilePaths)
                    let formattedPrompt :=
                      jsReplace
                        (jsReplace
                          (jsReplace CODE_REVIEWER_PROMPT "\x7b\x7bFILES_TO_REVIEW\x7d\x7d"
                            filesListFormatted)
                          "\x7b\x7bIMPLEMENTATION_PLAN\x7d\x7d" (implementationPlan.getD ""))
                        "\x7b\x7bREVIEW_FOCUS\x7d\x7d" reviewFocusSection
                    let run := executeClaudeCli
                      { prompt := some formattedPrompt,
                        allowedTools := some CODE_REVIEWER_ALLOWED_TOOLS,
                        timeout := some timeout,
                        logPrefix := some "code-reviewer" } w
                    .ok { run with
                      result := { content := run.result.content, isError := run.result.isError } }
          | _ =>
              .error (newError
                "Both filePaths (non-empty array) and implementationPlan must be provided")

/-- The `catch` block of the handler.  Its `if` reads `cleanedFilePaths`,
which is declared with `const` inside the `try` block and so is not in scope
here: reading it throws a `ReferenceError`, and the `return` of the error
result after it is never reached. -/
def catchBlock (_error : JsError) : Except JsError Run :=
  .error { name := "ReferenceError", message := "cleanedFilePaths is not defined" }

/-- The function `codeReviewerTool.handler`: the result it returns, or the
exception its promise is rejected with. -/
def handler (args : CodeReviewerArgs) (host : Host) (w : World) : Except JsError Run :=
  match tryBlock args host w with
  | .ok run => .ok run
  | .error e => catchBlock e

end codeReviewerTool

/-! ## `mcp-sequentialthinking-tools/sse-server-sequential-thinking.js`

The class `SequentialThinkingServer`.  Its method `formatThought` only builds
the text written to the console and is left out. -/

/-- A JavaScript number: `NaN`, the two infinities, or a finite value (every
finite double is a rational number, and comparison is that of the values). -/
inductive JsNum where
  | nan
  | posInf
  | negInf
  | fin (q : ℚ)
  deriving DecidableEq

/-- Truthiness of a number: `0` and `NaN` are falsy. -/
def JsNum.isTruthy : JsNum → Bool
  | .nan => false
  | .posInf => true
  | .negInf => true
  | .fin q => q ≠ 0

/-- The comparison `a > b` of two numbers; it is `false` when one is `NaN`. -/
def JsNum.gt : JsNum → JsNum → Bool
  | .nan, _ => false
  | _, .nan => false
  | .posInf, .posInf => false
  | .posInf, _ => true
  | _, .posInf => false
  | .negInf, _ => false
  | .fin _, .negInf => true
  | .fin a, .fin b => b < a

/-- A JavaScript value, as far as `validateThoughtData` tells values apart:
`other` is any value that is neither `undefined`, `null`, a boolean, a number
nor a string. -/
inductive JsVal where
  | undefined
  | null
  | bool (b : Bool)
  | num (n : JsNum)
  | str (s : String)
  | other
  deriving DecidableEq

/-- A tool recommended for a step, as the tool schema declares it;
`suggested_inputs` is an object, kept as its JSON text. -/
structure ToolRecommendation where
  tool_name : String
  confidence : JsNum
  rationale : String
  priority : JsNum
  suggested_inputs : Option String := none
  alternatives : Option (List String) := none
  deriving DecidableEq

/-- A step recommendation, as the tool schema declares it. -/
structure StepRecommendation where
  step_description : String
  recommended_tools : List ToolRecommendation
  expected_outcome : String
  next_step_conditions : Option (List String) := none
  deriving DecidableEq

/-- The argument of `processThought`: the four properties that
`validateThoughtData` checks are any values, the others have the types of the
tool schema. -/
structure ThoughtInput where
  thought : JsVal := .undefined
  thought_number : JsVal := .undefined
  total_thoughts : JsVal := .undefined
  next_thought_needed : JsVal := .undefined
  is_revision : Option Bool := none
  revises_thought : Option JsNum := none
  branch_from_thought : Option JsNum := none
  branch_id : Option String := none
  needs_more_thoughts : Option Bool := none
  current_step : Option StepRecommendation := none
  previous_steps : Option (List StepRecommendation) := none
  remaining_steps : Option (List String) := none
  deriving DecidableEq

/-- The object returned by `validateThoughtData`. -/
structure ThoughtData where
  thought : String
  thought_number : JsNum
  total_thoughts : JsNum
  next_thought_needed : Bool
  is_revision : Option Bool := none
  revises_thought : Option JsNum := none
  branch_from_thought : Option JsNum := none
  branch_id : Option String := none
  needs_more_thoughts : Option Bool := none
  current_step : Option StepRecommendation := none
  previous_steps : Option (List StepRecommendation) := none
  remaining_steps : Option (List String) := none
  deriving DecidableEq

/-- The state of a `SequentialThinkingServer`: the array `thought_history`
and the own properties of the object `branches`, in the order of their
creation. -/
structure SequentialThinkingServer where
  thought_history : List ThoughtData := []
  branches : List (String × List ThoughtData) := []
  deriving DecidableEq

/-- The object that `processThought` serialises with `JSON.stringify` on
success. -/
structure ThoughtPayload where
  thought_number : JsNum
  total_thoughts : JsNum
  next_thought_needed : Bool
  branches : List String
  thought_history_length : Nat
  current_step : Option StepRecommendation
  previous_steps : Option (List StepRecommendation)
  remaining_steps : Option (List String)
  deriving DecidableEq

/-- The value returned by `processThought`: `ok payload` is the result whose
one text block is `JSON.stringify(payload, null, 2)`, without `isError`;
`failed error` is the result whose text block is the JSON text of `{ error,
status: 'failed' }`, with `isError: true`. -/
inductive ThoughtResult where
  | ok (payload : ThoughtPayload)
  | failed (error : String)
  deriving DecidableEq

/-- The method `validateThoughtData`. -/
def validateThoughtData (data : ThoughtInput) : Except JsError ThoughtData :=
  match data.thought with
  | .str thought =>
      if thought = "" then .error (newError "Invalid thought: must be a string")
      else
        match data.thought_number with
        | .num thought_number =>
            if !thought_number.isTruthy then
              .error (newError "Invalid thought_number: must be a number")
            else
              match data.total_thoughts with
              | .num total_thoughts =>
                  if !total_thoughts.isTruthy then
                    .error (newError "Invalid total_thoughts: must be a number")
                  else
                    match data.next_thought_needed with
                    | .bool next_thought_needed =>
                        .ok { thought := thought,
                              thought_number := thought_number,
                              total_thoughts := total_thoughts,
                              next_thought_needed := next_thought_needed,
                              is_revision := data.is_revision,
                              revises_thought := data.revises_thought,
                              branch_from_thought := data.branch_from_thought,
                              branch_id := data.branch_id,
                              needs_more_thoughts := data.needs_more_thoughts,
                              current_step := data.current_step,
                              previous_steps := data.previous_steps,
                              remaining_steps := data.remaining_steps }
                    | _ => .error (newError "Invalid next_thought_needed: must be a boolean")
              | _ => .error (newError "Invalid total_thoughts: must be a number")
        | _ => .error (newError "Invalid thought_number: must be a number")
  | _ => .error (newError "Invalid thought: must be a string")

/-- The names every object inherits from `Object.prototype`. -/
def objectPrototypeKeys : List String :=
  ["constructor", "__defineGetter__", "__defineSetter__", "hasOwnProperty",
   "__lookupGetter__", "__lookupSetter__", "isPrototypeOf", "propertyIsEnumerable",
   "toString", "valueOf", "__proto__", "toLocaleString"]

/-- The value of `this.branches[id]`: the array of an own property, a value
inherited from `Object.prototype` (a function, or the prototype itself: truthy,
and without a method `push`), or `undefined`. -/
inductive BranchLookup where
  | own (thoughts : List ThoughtData)
  | inherited
  | absent
  deriving DecidableEq

/-- The expression `this.branches[id]`. -/
def lookupBranch (branches : List (String × List ThoughtData)) (id : String) : BranchLookup :=
  match branches.lookup id with
  | some thoughts => .own thoughts
  | none => if id ∈ objectPrototypeKeys then .inherited else .absent

/-- The array of the own property `id` with one more element. -/
def pushToBranch (id : String) (t : ThoughtData) :
    List (String × List ThoughtData) → List (String × List ThoughtData)
  | [] => []
  | (key, thoughts) :: rest =>
      if key = id then (key, thoughts ++ [t]) :: rest
      else (key, thoughts) :: pushToBranch id t rest

/-- The value of a decimal numeral. -/
def digitsValue (digits : List Char) : Nat :=
  digits.foldl (fun n c => 10 * n + (c.toNat - 48)) 0

/-- The value of a property name that is an array index: a decimal numeral
without leading zero, below `2 ^ 32 - 1`. -/
def arrayIndex? (key : String) : Option Nat :=
  let digits := key.toList
  if digits ≠ [] ∧ digits.all Char.isDigit = true ∧ (digits.head? ≠ some '0' ∨ digits = ['0']) ∧
      digitsValue digits < 2 ^ 32 - 1 then
    some (digitsValue digits)
  else none

/-- The name `key` put in its place among names sorted by their index. -/
def insertByIndex (n : Nat) (key : String) : List (Nat × String) → List (Nat × String)
  | [] => [(n, key)]
  | (m, other) :: rest =>
      if n ≤ m then (n, key) :: (m, other) :: rest
      else (m, other) :: insertByIndex n key rest

/-- The names that are array indices, in ascending order of the index. -/
def indexKeys : List String → List (Nat × String)
  | [] => []
  | key :: rest =>
      match arrayIndex? key with
      | some n => insertByIndex n key (indexKeys rest)
      | none => indexKeys rest

/-- The function `Object.keys` on an object with the given own properties:
the array indices in ascending order, then the other names in the order of
their creation. -/
def objectKeys {α : Type} (props : List (String × α)) : List String :=
  (indexKeys (props.map (fun p => p.1))).map (fun p => p.2) ++
    (props.map (fun p => p.1)).filter (fun key => (arrayIndex? key).isNone)

/-- The statement `if (thought_number > total_thoughts) total_thoughts =
thought_number`. -/
def adjustTotal (validated : ThoughtData) : ThoughtData :=
  if validated.thought_number.gt validated.total_thoughts then
    { validated with total_thoughts := validated.thought_number }
  else validated

/-- The statement that pushes `current_step`, if there is one, on
`previous_steps`. -/
def storeStep (validated : ThoughtData) : ThoughtData :=
  match validated.current_step with
  | some step =>
      { validated with previous_steps := some (validated.previous_steps.getD [] ++ [step]) }
  | none => validated

/-- The statement `if (branch_from_thought && branch_id) { ... }`: the
thought is pushed on the array `this.branches[branch_id]`, which is created
first when the lookup gives `undefined`; when the lookup gives an inherited
value, `push` is not a function of it and the call throws. -/
def addToBranch (server : SequentialThinkingServer) (validated : ThoughtData) :
    Except JsError SequentialThinkingServer :=
  let branching :=
    (match validated.branch_from_thought with
      | some n => n.isTruthy
      | none => false) && truthy validated.branch_id
  if branching then
    let id := validated.branch_id.getD ""
    match lookupBranch server.branches id with
    | .own _ => .ok { server with branches := pushToBranch id validated server.branches }
    | .absent => .ok { server with branches := server.branches ++ [(id, [validated])] }
    | .inherited =>
        .error { name := "TypeError",
                 message := "this.branches[validatedInput.branch_id].push is not a function" }
  else .ok server

/-- The object serialised in the response. -/
def thoughtPayload (server : SequentialThinkingServer) (validated : ThoughtData) :
    ThoughtPayload :=
  { thought_number := validated.thought_number,
    total_thoughts := validated.total_thoughts,
    next_thought_needed := validated.next_thought_needed,
    branches := objectKeys server.branches,
    thought_history_length := server.thought_history.length,
    current_step := validated.current_step,
    previous_steps := validated.previous_steps,
    remaining_steps := validated.remaining_steps }

/-- The method `processThought`: the state afterwards and the value
returned.  An exception thrown in the `try` block is turned into the
`failed` result by the `catch`; what the block did to the state before stays
done. -/
def processThought (server : SequentialThinkingServer) (input : ThoughtInput) :
    SequentialThinkingServer × ThoughtResult :=
  match validateThoughtData input with
  | .error e => (server, .failed e.message)
  | .ok validated =>
      let validatedInput := storeStep (adjustTotal validated)
      let server1 :=
        { server with thought_history := server.thought_history ++ [validatedInput] }
      match addToBranch server1 validatedInput with
      | .error e => (server1, .failed e.message)
      | .ok server2 => (server2, .ok (thoughtPayload server2 validatedInput))

/-! ## Vocabulary of the claims about `processThought` -/

/-- The value is a non-empty string. -/
def isNonEmptyString : JsVal → Bool
  | .str s => s != ""
  | _ => false

/-- The value is a number other than zero; `NaN`, "not a number", does not
count as one. -/
def isNonZeroNumber : JsVal → Bool
  | .num n => n != JsNum.nan && n != JsNum.fin 0
  | _ => false

/-- The value is a boolean. -/
def isBoolean : JsVal → Bool
  | .bool _ => true
  | _ => false

/-- The message of the first check that fails, in the order thought,
thought_number, total_thoughts, next_thought_needed; `none` for a valid
thought. -/
def firstFailure (input : ThoughtInput) : Option String :=
  if !isNonEmptyString input.thought then some "Invalid thought: must be a string"
  else if !isNonZeroNumber input.thought_number then
    some "Invalid thought_number: must be a number"
  else if !isNonZeroNumber input.total_thoughts then
    some "Invalid total_thoughts: must be a number"
  else if !isBoolean input.next_thought_needed then
    some "Invalid next_thought_needed: must be a boolean"
  else none

/-- Both `branch_from_thought` and `branch_id` are set: a number that is
neither zero nor `NaN`, and a non-empty string. -/
def branchIsSet (input : ThoughtInput) : Bool :=
  (match input.branch_from_thought with
    | some n => n.isTruthy
    | none => false) && truthy input.branch_id

/-- The thought asks for a branch whose name every object inherits from
`Object.prototype` and that is not a branch of the server. -/
def branchIsInherited (server : SequentialThinkingServer) (input : ThoughtInput) : Bool :=
  branchIsSet input &&
    lookupBranch server.branches (input.branch_id.getD "") = BranchLookup.inherited

/-- The thoughts of the branch `id`; none when there is no such branch. -/
def branchThoughts (server : SequentialThinkingServer) (id : String) : List ThoughtData :=
  (server.branches.lookup id).getD []

/-! ## `tools/code-editor.js` -/

/-- The text of `CODE_EDITOR_PROMPT` before the placeholder of the task. -/
def editorPromptIntro : String :=
  "You are a precise, minimalist code editor focused on implementing exactly what is requested with no additional features.\n" ++
  "\n" ++
  "PRINCIPLES:\n" ++
  "1. Implement EXACTLY what is specified - nothing more, nothing less\n" ++
  "2. Write clean, efficient, readable code with helpful comments\n" ++
  "3. Follow existing code patterns and standards in the project\n" ++
  "4. Create only what is absolutely necessary to solve the problem\n" ++
  "5. Don't add speculative features or \"technical debt\"\n" ++
  "\n" ++
  "IMPLEMENTATION APPROACH:\n" ++
  "1. Carefully analyze the requirements\n" ++
  "2. Systematically implement each step of the plan\n" ++
  "3. Add clear, informative comments explaining key decisions\n" ++
  "4. Follow standard best practices for the language/framework\n" ++
  "5. Format code consistently with the existing codebase\n" ++
  "\n" ++
  "CONSISTENCY REQUIREMENTS:\n" ++
  "1. Maintain consistency with other files being edited as part of this task\n" ++
  "2. Follow project-wide conventions for naming, formatting, and structure\n" ++
  "3. Ensure compatibility between interrelated components\n" ++
  "4. Use the same patterns and approaches as seen in the codebase\n" ++
  "5. When in doubt, prioritize consistency with existing code over introducing new patterns\n" ++
  "\n" ++
  "TASK DESCRIPTION:\n"

/-- The text of `CODE_EDITOR_PROMPT` after the placeholder of the code
context. -/
def editorPromptClosing : String :=
  "\n" ++
  "\n" ++
  "Use the available tools to edit the file and execute the task. Focus only on the changes needed to fulfill the requirements."

/-- The constant `CODE_EDITOR_PROMPT`, its text cut at the three
placeholders. -/
def CODE_EDITOR_PROMPT : String :=
  editorPromptIntro ++ "\x7b\x7bTASK\x7d\x7d" ++ "\n\nFILE PATH TO EDIT:\n" ++
    "\x7b\x7bFILE_PATH\x7d\x7d" ++ "\n\n" ++ "\x7b\x7bCODE_CONTEXT\x7d\x7d" ++
    editorPromptClosing

/-- The constant `CODE_EDITOR_ALLOWED_TOOLS`. -/
def CODE_EDITOR_ALLOWED_TOOLS : List String :=
  ["Read", "Edit", "MultiEdit", "Write", "Bash", "LS", "Glob", "Grep", "Task", "Batch",
   "TodoRead", "TodoWrite"]

/-- The arguments of the `CodeEditor` tool. -/
structure CodeEditorArgs where
  filePath : Option String := none
  task : Option String := none
  codeContext : Option String := none
  relatedFiles : Option (List String) := none
  timeout : Option Nat := none
  deriving DecidableEq, Repr

/-- What a call of a tool handler returned and the runs of `executeClaudeCli`
it made, in order. -/
structure HandlerRun where
  result : ToolResult
  calls : List Run := []
  deriving DecidableEq, Repr

/-- The calls `s.replace(/"/g, '\\"').replace(/'/g, "'\\''")`: every double
quote gets a backslash before it, then every apostrophe becomes an
apostrophe, a backslash and two apostrophes. -/
def escapeQuotes (s : String) : String :=
  String.mk
    ((s.toList.flatMap (fun c => if c = Char.ofNat 34 then [Char.ofNat 92, c] else [c])).flatMap
      (fun c => if c = Char.ofNat 39 then [c, Char.ofNat 92, c, c] else [c]))

namespace codeEditorTool

/-- The constant `summaryPrompt`. -/
def summaryPrompt : String :=
  "Summarize the changes you just made concisely, focusing on the key modifications and their purpose."

/-- The code context after the section on related files is added to it. -/
def withRelatedFiles (codeContext : String) (formattedRelatedFiles : List String) : String :=
  if formattedRelatedFiles.length > 0 then
    codeContext ++ (if codeContext != "" then "\n\n" else "") ++
      "RELATED FILES TO REFERENCE FOR CONSISTENCY:\n" ++
      jsJoin "\n" (formattedRelatedFiles.map (fun file => "- " ++ file)) ++
      "\n\nUse the Read tool to examine these files before making changes to ensure consistency."
  else codeContext

/-- The text put in the place of the code context: the context under a
heading, or nothing when the context is empty. -/
def contextSection (codeContext : String) : String :=
  if codeContext != "" then "\nRELEVANT CODE CONTEXT:\n" ++ codeContext else ""

/-- The value of `formattedPrompt`: three calls of `replace` on the
template. -/
def formattedPrompt (task formattedFilePath codeContext : String) : String :=
  jsReplace
    (jsReplace
      (jsReplace CODE_EDITOR_PROMPT "\x7b\x7bTASK\x7d\x7d" task)
      "\x7b\x7bFILE_PATH\x7d\x7d" formattedFilePath)
    "\x7b\x7bCODE_CONTEXT\x7d\x7d" (contextSection codeContext)

/-- The test that the edit returned the "(no content)" result. -/
def isNoContent (result : ToolResult) : Bool :=
  match result.content with
  | [block] => block.text = "(no content)\n"
  | _ => false

/-- The test `summaryResult?.content?.[0]?.text &&
summaryResult.content[0].text.trim() !== ''`. -/
def isValidSummary (summaryResult : ToolResult) : Bool :=
  match summaryResult.content with
  | block :: _ => block.text != "" && jsTrim block.text != ""
  | [] => false

/-- The options of the follow-up run that asks for a summary. -/
def summaryOptions : Options :=
  { command := some ("--continue -p \"" ++ escapeQuotes summaryPrompt ++ "\""),
    allowedTools := some CODE_EDITOR_ALLOWED_TOOLS,
    timeout := some 60000,
    logPrefix := some "code-editor-summary" }

/-- The value of `timeout`, `args.timeout || 900000`. -/
def timeoutOf (args : CodeEditorArgs) : Nat :=
  match args.timeout with
  | some t => if t = 0 then 900000 else t
  | none => 900000

/-- The code context put into the prompt: `args.codeContext || ""`, then the
section on related files, then `formatPathsInText`. -/
def contextOf (args : CodeEditorArgs) : String :=
  formatPathsInText
    (withRelatedFiles (if truthy args.codeContext then args.codeContext.getD "" else "")
      (formatClaudeCodePaths (args.relatedFiles.getD [])))

/-- The options of the edit run. -/
def editOptions (args : CodeEditorArgs) : Options :=
  { prompt := some (formattedPrompt (args.task.getD "")
      (formatClaudeCodePath (args.filePath.getD "")) (contextOf args)),
    allowedTools := some CODE_EDITOR_ALLOWED_TOOLS,
    timeout := some (timeoutOf args),
    logPrefix := some "code-editor" }

/-- The function `codeEditorTool.handler`; `w1` is the world of the edit run
and `w2` that of the summary run.  `executeClaudeCli` does not throw, so the
inner `catch` is never entered, and the outer `catch` only receives the
error thrown for missing arguments.  The fallback result takes the metadata
of `result`: a result whose text is "(no content)" has metadata, so the empty
object is never used for them. -/
def handler (args : CodeEditorArgs) (w1 w2 : World) : HandlerRun :=
  if !truthy args.filePath || !truthy args.task then
    { result := caughtResult (newError "Both filePath and task must be provided") }
  else
    let run := executeClaudeCli (editOptions args) w1
    if isNoContent run.result then
      let summaryRun := executeClaudeCli summaryOptions w2
      if isValidSummary summaryRun.result then
        { result := summaryRun.result, calls := [run, summaryRun] }
      else
        { result :=
            { content := [{ type := "text",
                            text := "File edited successfully. No additional output was returned." }],
              isError := false,
              metadata := run.result.metadata },
          calls := [run, summaryRun] }
    else { result := run.result, calls := [run] }

end codeEditorTool

/-! ## Vocabulary of the claim about prompt templates -/

/-- The template of the code editor with each placeholder replaced by the
text given for it, unchanged. -/
def verbatimPrompt (task filePath codeContext : String) : String :=
  editorPromptIntro ++ task ++ "\n\nFILE PATH TO EDIT:\n" ++ filePath ++ "\n\n" ++ codeContext ++
    editorPromptClosing

/-- Whether two texts differ at a position that both have: the first is then
not at the start of the second, whatever follows the second. -/
def clashes : List Char → List Char → Bool
  | p :: ps, c :: cs => p != c || clashes ps cs
  | _, _ => false

/-- Whether the pattern starts at no position of the text, whatever follows
the text. -/
def startsNowhere (pat : List Char) : List Char → Bool
  | [] => true
  | c :: cs => clashes pat (c :: cs) && startsNowhere pat cs

/-- Whether the text has neither an opening brace nor a dollar sign. -/
def isPlainText (s : String) : Bool :=
  s.toList.all (fun c => c != Char.ofNat 123 && c != '$')

/-! ## Strings and lists -/

/-- The empty string is a left unit of `++`. -/
theorem empty_append_str (s : String) : "" ++ s = s := by
  simp

/-- A string with a non-empty beginning is not empty. -/
theorem append_ne_empty (a b : String) (h : a ≠ "") : a ++ b ≠ "" := by
  intro hab
  apply h
  have h1 : (a ++ b).data = [] := by rw [hab]
  rw [String.data_append] at h1
  exact String.ext (List.append_eq_nil.mp h1).1

/-- The element found by `find?` splits the list: nothing before it
satisfies the predicate. -/
theorem find_split {α : Type} (p : α → Bool) (l : List α) (a : α) (h : l.find? p = some a) :
    ∃ pre post, l = pre ++ a :: post ∧ (∀ x ∈ pre, p x = false) ∧ p a = true := by
  induction l with
  | nil => simp at h
  | cons b rest ih =>
      by_cases hb : p b = true
      · rw [List.find?_cons_of_pos _ hb] at h
        cases h
        exact ⟨[], rest, rfl, by simp, hb⟩
      · rw [List.find?_cons_of_neg _ hb] at h
        obtain ⟨pre, post, h1, h2, h3⟩ := ih h
        refine ⟨b :: pre, post, by rw [h1]; rfl, ?_, h3⟩
        intro x hx
        rcases List.mem_cons.mp hx with hx | hx
        · rw [hx]; simpa using hb
        · exact h2 x hx

/-- When `find?` finds nothing, no element satisfies the predicate. -/
theorem find_none {α : Type} (p : α → Bool) (l : List α) (h : l.find? p = none) :
    ∀ x ∈ l, p x = false := by
  intro x hx
  have := List.find?_eq_none.mp h x hx
  simpa using this

/-! ## The event handlers -/

/-- Running the handlers on a concatenation of event sequences. -/
theorem runEvents_append (w : World) (st : ExecState) (a b : List ProcEvent) :
    runEvents w st (a ++ b) = runEvents w (runEvents w st a) b := by
  simp [runEvents, List.foldl_append]

/-- Running the handlers on a sequence, one event at a time. -/
theorem runEvents_cons (w : World) (st : ExecState) (e : ProcEvent) (b : List ProcEvent) :
    runEvents w st (e :: b) = runEvents w (onEvent w st e) b := rfl

/-- Events other than `close` and `error` only accumulate the captured
output: the promise and the race stay as they are. -/
theorem runEvents_pending (w : World) (pre : List ProcEvent)
    (hpre : ∀ e ∈ pre, e.resolves = false) (st : ExecState) :
    (runEvents w st pre).stdout = st.stdout ++ capturedStdout pre ∧
    (runEvents w st pre).stderr = st.stderr ++ capturedStderr pre ∧
    (runEvents w st pre).executeResult = st.executeResult ∧
    (runEvents w st pre).settled = st.settled := by
  induction pre generalizing st with
  | nil => simp [runEvents, capturedStdout, capturedStderr]
  | cons e rest ih =>
      have hrest : ∀ x ∈ rest, x.resolves = false := fun x hx => hpre x (List.mem_cons_of_mem _ hx)
      have he : e.resolves = false := hpre e (List.mem_cons_self _ _)
      rw [runEvents_cons]
      obtain ⟨h1, h2, h3, h4⟩ := ih hrest (onEvent w st e)
      rw [h1, h2, h3, h4]
      cases e with
      | stdoutData chunk => simp [onEvent, capturedStdout, capturedStderr, String.append_assoc]
      | stderrData chunk => simp [onEvent, capturedStdout, capturedStderr, String.append_assoc]
      | exit => simp [onEvent, capturedStdout, capturedStderr]
      | close code => simp [ProcEvent.resolves] at he
      | error e => simp [ProcEvent.resolves] at he

/-- Once `executePromise` is resolved, later events do not change its value. -/
theorem runEvents_resolved (w : World) (events : List ProcEvent) (st : ExecState) (r : RawResult)
    (h : st.executeResult = some r) : (runEvents w st events).executeResult = some r := by
  induction events generalizing st with
  | nil => simpa [runEvents] using h
  | cons e rest ih =>
      rw [runEvents_cons]
      apply ih
      cases e <;> simp [onEvent, resolveExecute, h]

/-- The object the `close` handler resolves with. -/
theorem runEvents_close (w : World) (pre post : List ProcEvent) (code : Option Int)
    (hpre : ∀ e ∈ pre, e.resolves = false) (st : ExecState)
    (hres : st.executeResult = none) :
    (runEvents w st (pre ++ ProcEvent.close code :: post)).executeResult =
      some { stdout := st.stdout ++ capturedStdout pre,
             stderr := st.stderr ++ capturedStderr pre,
             exitCode := code.getD 0,
             error := if code ≠ some 0 then some ("Process exited with code " ++ codeStr code)
                      else none } := by
  obtain ⟨h1, h2, h3, _⟩ := runEvents_pending w pre hpre st
  rw [runEvents_append, runEvents_cons]
  apply runEvents_resolved
  rw [hres] at h3
  simp only [onEvent, resolveExecute, h3, h1, h2]
  split <;> rfl

/-- The object the `error` handler resolves with. -/
theorem runEvents_error (w : World) (pre post : List ProcEvent) (e : JsError)
    (hpre : ∀ x ∈ pre, x.resolves = false) (st : ExecState)
    (hres : st.executeResult = none) :
    (runEvents w st (pre ++ ProcEvent.error e :: post)).executeResult =
      some { stdout := st.stdout ++ capturedStdout pre,
             stderr := st.stderr ++ capturedStderr pre ++ "\n" ++ e.message,
             exitCode := 1,
             error := some ("Failed to execute command: " ++ e.message) } := by
  obtain ⟨h1, h2, h3, _⟩ := runEvents_pending w pre hpre st
  rw [runEvents_append, runEvents_cons]
  apply runEvents_resolved
  rw [hres] at h3
  simp only [onEvent, resolveExecute, h3, h1, h2]
  split <;> rfl

/-! ## The formatted result -/

/-- The failure branch of the result formatting. -/
theorem formatResult_error (logPrefix : String) (w : World) (r : RawResult) (msg : String)
    (h : r.error = some msg) (hne : msg ≠ "") :
    formatResult logPrefix w r =
      { content := [{ type := "text",
                      text := "Error executing Claude Code: " ++ msg ++ "\n\n" ++ r.stderr }],
        isError := true,
        metadata := none } := by
  simp [formatResult, h, truthy, hne]

/-- A raw result without an error is formatted as a success. -/
theorem formatResult_ok_isError (logPrefix : String) (w : World) (r : RawResult)
    (h : r.error = none) : (formatResult logPrefix w r).isError = false := by
  unfold formatResult
  rw [h]
  simp only [truthy]
  by_cases h1 : jsTrim r.stdout = ""
  · by_cases h2 : logPrefix = "code-editor"
    · simp [h1, h2]
    · simp [h1, h2]
  · simp [h1]

/-- The formatted result has one text block. -/
theorem formatResult_content (logPrefix : String) (w : World) (r : RawResult) :
    ∃ t, (formatResult logPrefix w r).content = [{ type := "text", text := t }] := by
  unfold formatResult
  by_cases h0 : truthy r.error = true
  · exact ⟨_, by rw [if_pos h0]⟩
  · rw [if_neg h0]
    by_cases h1 : jsTrim r.stdout = ""
    · rw [if_pos h1]
      by_cases h2 : logPrefix = "code-editor"
      · exact ⟨_, by rw [if_pos h2]⟩
      · exact ⟨_, by rw [if_neg h2]⟩
    · exact ⟨_, by rw [if_neg h1]⟩

/-! ## One call of `executeClaudeCli` -/

/-- With a prompt or a command, a command line is built. -/
theorem buildCommand_ok (dir path : String) (prompt command : Option String)
    (tools : List String) (h : truthy prompt = true ∨ truthy command = true) :
    ∃ cmd, buildCommand dir path prompt command tools = .ok cmd := by
  unfold buildCommand
  by_cases hp : truthy prompt = true
  · simp [hp]
  · rcases h with h | h
    · exact absurd h hp
    · simp [hp, h]

/-- When a process is spawned, the result is the formatted winner of the
race. -/
theorem result_of_spawned (o : Options) (w : World)
    (hreq : truthy o.prompt = true ∨ truthy o.command = true)
    (hspawn : w.spawnThrows = none) :
    ∃ st0 : ExecState, st0.stdout = "" ∧ st0.stderr = "" ∧ st0.executeResult = none ∧
      (executeClaudeCli o w).result =
        formatResult (o.logPrefix.getD "claude-code") w
          (raceResult (o.timeout.getD 900000) (runEvents w st0 w.beforeDeadline)) := by
  obtain ⟨cmd, hcmd⟩ := buildCommand_ok (userDirectory w) (claudePath w) o.prompt o.command
    (o.allowedTools.getD []) hreq
  refine ⟨{ fs := tryAppend w (writeLogHeader w (createTempDir w {}) (userDirectory w)
    (claudePath w) (o.allowedTools.getD [])) ("Command: " ++ cmd ++ "\n") }, rfl, rfl, rfl, ?_⟩
  simp only [executeClaudeCli, hcmd, hspawn]

/-- The error flag of a run that spawned a process, by the first resolving
event before the deadline. -/
theorem isError_of_spawned (o : Options) (w : World)
    (hreq : truthy o.prompt = true ∨ truthy o.command = true)
    (hspawn : w.spawnThrows = none) :
    (executeClaudeCli o w).result.isError =
      match firstResolving w.beforeDeadline with
      | some (.close (some 0)) => false
      | _ => true := by
  obtain ⟨st0, h1, h2, h3, hres⟩ := result_of_spawned o w hreq hspawn
  rw [hres]
  cases hf : firstResolving w.beforeDeadline with
  | none =>
      obtain ⟨_, _, h, _⟩ := runEvents_pending w w.beforeDeadline (find_none _ _ hf) st0
      rw [h3] at h
      simp only [raceResult, h]
      rw [formatResult_error _ _ _ ("Command timed out after " ++
        toString (o.timeout.getD 900000) ++ "ms") rfl
        (by rw [String.append_assoc]; exact append_ne_empty _ _ (by decide))]
  | some e =>
      obtain ⟨pre, post, hsplit, hpre, he⟩ := find_split _ _ _ hf
      rw [hsplit]
      cases e with
      | stdoutData chunk => simp [ProcEvent.resolves] at he
      | stderrData chunk => simp [ProcEvent.resolves] at he
      | exit => simp [ProcEvent.resolves] at he
      | error err =>
          have hx := runEvents_error w pre post err hpre st0 h3
          simp only [raceResult, hx]
          rw [formatResult_error _ _ _ ("Failed to execute command: " ++ err.message) rfl
            (append_ne_empty _ _ (by decide))]
      | close code =>
          have hx := runEvents_close w pre post code hpre st0 h3
          simp only [raceResult, hx]
          by_cases hc : code = some 0
          · subst hc
            exact formatResult_ok_isError _ _ _ (by simp)
          · rw [formatResult_error _ _ _ ("Process exited with code " ++ codeStr code)
              (by simp [hc]) (append_ne_empty _ _ (by decide))]
            cases code with
            | none => rfl
            | some n =>
                have hn : n ≠ 0 := fun h0 => hc (by rw [h0])
                cases n with
                | ofNat k =>
                    cases k with
                    | zero => exact absurd rfl hn
                    | succ k => rfl
                | negSucc k => rfl

/-- The `spawn` call of a request with a prompt. -/
theorem spawnCalls_of_prompt (o : Options) (w : World) (p : String)
    (hp : o.prompt = some p) (hne : p ≠ "") :
    (executeClaudeCli o w).spawnCalls =
      [{ file := "bash",
         args := ["-c", promptCommandHead (userDirectory w) ++ base64Prompt p ++
           promptCommandTail (claudePath w) (jsJoin "," (o.allowedTools.getD []))],
         stdio := ["ignore", "pipe", "pipe"] }] := by
  have ht : truthy o.prompt = true := by simp [hp, truthy, hne]
  have hb : buildCommand (userDirectory w) (claudePath w) o.prompt o.command
      (o.allowedTools.getD []) =
      .ok (promptCommandHead (userDirectory w) ++ base64Prompt p ++
        promptCommandTail (claudePath w) (jsJoin "," (o.allowedTools.getD []))) := by
    unfold buildCommand
    rw [if_pos ht, hp]
    rfl
  cases hs : w.spawnThrows with
  | some e => simp only [executeClaudeCli, hb, hs]
  | none => simp only [executeClaudeCli, hb, hs]

/-! ## Base64 -/

/-- The value of the character of a six-bit value is that value. -/
theorem b64Val_b64Char : ∀ n, n < 64 → b64Val (b64Char n) = some n := by
  decide

/-- No character of the alphabet is the padding character. -/
theorem b64Char_ne_pad : ∀ n, n < 64 → b64Char n ≠ '=' := by
  decide

/-- The character of a six-bit value is a base64 character. -/
theorem b64Char_base64_lt : ∀ n, n < 64 → isBase64Char (b64Char n) = true := by
  decide

/-- Every value of `b64Char` is a base64 character. -/
theorem b64Char_base64 (n : Nat) : isBase64Char (b64Char n) = true := by
  by_cases h : n < 64
  · exact b64Char_base64_lt n h
  · have : b64Char n = 'A' := by
      unfold b64Char
      rw [List.getD_eq_default]
      simpa [b64Alphabet] using h
    rw [this]
    decide

/-- A base64 character is not a shell metacharacter. -/
theorem base64_not_meta : ∀ c : Char, isBase64Char c = true → c ∉ shellMetaChars := by
  intro c hc hmem
  simp only [shellMetaChars, List.mem_cons, List.mem_singleton, List.not_mem_nil, or_false] at hmem
  rcases hmem with h | h | h | h | h | h | h <;> (rw [h] at hc; revert hc; decide)

/-- The encoding consists of base64 characters. -/
theorem base64Encode_chars (bytes : List Nat) :
    ∀ c ∈ base64Encode bytes, isBase64Char c = true := by
  induction bytes using base64Encode.induct with
  | case1 => simp [base64Encode]
  | case2 a =>
      intro c hc
      simp only [base64Encode, List.mem_cons, List.mem_singleton, List.not_mem_nil, or_false] at hc
      rcases hc with h | h | h | h <;> rw [h] <;> first | exact b64Char_base64 _ | decide
  | case3 a b =>
      intro c hc
      simp only [base64Encode, List.mem_cons, List.mem_singleton, List.not_mem_nil, or_false] at hc
      rcases hc with h | h | h | h <;> rw [h] <;> first | exact b64Char_base64 _ | decide
  | case4 a b c rest ih =>
      intro x hx
      simp only [base64Encode, List.mem_cons] at hx
      rcases hx with h | h | h | h | h
      · rw [h]; exact b64Char_base64 _
      · rw [h]; exact b64Char_base64 _
      · rw [h]; exact b64Char_base64 _
      · rw [h]; exact b64Char_base64 _
      · exact ih x h

/-- Decoding the groups of an encoding gives back the bytes. -/
theorem base64DecodeGroups_encode (bytes : List Nat) (hb : ∀ b ∈ bytes, b < 256) :
    base64DecodeGroups (base64Encode bytes) = some bytes := by
  induction bytes using base64Encode.induct with
  | case1 => simp [base64Encode, base64DecodeGroups]
  | case2 a =>
      have ha : a < 256 := hb a (by simp)
      have h0 : a / 4 < 64 := by omega
      have h1 : a % 4 * 16 < 64 := by omega
      simp only [base64Encode, base64DecodeGroups, b64Val_b64Char _ h0, b64Val_b64Char _ h1]
      simp
      omega
  | case3 a b =>
      have ha : a < 256 := hb a (by simp)
      have hb1 : b < 256 := hb b (by simp)
      have h0 : a / 4 < 64 := by omega
      have h1 : a % 4 * 16 + b / 16 < 64 := by omega
      have h2 : b % 16 * 4 < 64 := by omega
      simp only [base64Encode, base64DecodeGroups, b64Val_b64Char _ h0, b64Val_b64Char _ h1,
        b64Val_b64Char _ h2, if_neg (b64Char_ne_pad _ h2)]
      simp
      omega
  | case4 a b c rest ih =>
      have ha : a < 256 := hb a (by simp)
      have hb1 : b < 256 := hb b (by simp)
      have hc : c < 256 := hb c (by simp)
      have hrest : ∀ x ∈ rest, x < 256 := fun x hx => hb x (by simp [hx])
      have h0 : a / 4 < 64 := by omega
      have h1 : a % 4 * 16 + b / 16 < 64 := by omega
      have h2 : b % 16 * 4 + c / 64 < 64 := by omega
      have h3 : c % 64 < 64 := by omega
      simp only [base64Encode, base64DecodeGroups, b64Val_b64Char _ h0, b64Val_b64Char _ h1,
        b64Val_b64Char _ h2, b64Val_b64Char _ h3, if_neg (b64Char_ne_pad _ h2),
        if_neg (b64Char_ne_pad _ h3), ih hrest]
      simp
      omega

/-- The UTF-8 encoding is a sequence of bytes. -/
theorem utf8Bytes_lt (s : String) : ∀ b ∈ utf8Bytes s, b < 256 := by
  intro b hb
  simp only [utf8Bytes, List.mem_map] at hb
  obtain ⟨x, _, rfl⟩ := hb
  exact UInt8.toNat_lt x

/-- The encoding has no newline. -/
theorem base64_no_newline (bytes : List Nat) :
    (base64Encode bytes).filter (fun c => c != '\n') = base64Encode bytes := by
  rw [List.filter_eq_self]
  intro c hc
  have h := base64Encode_chars bytes c hc
  have : c ≠ '\n' := by
    intro hn
    rw [hn] at h
    revert h
    decide
  simpa using this

/-- Decoding undoes encoding, with or without the newline `echo` appends. -/
theorem base64Decode_encode (bytes : List Nat) (hb : ∀ b ∈ bytes, b < 256) :
    base64Decode (base64Encode bytes) = some bytes ∧
    base64Decode (base64Encode bytes ++ ['\n']) = some bytes := by
  constructor
  · rw [base64Decode, base64_no_newline, base64DecodeGroups_encode bytes hb]
  · rw [base64Decode, List.filter_append, base64_no_newline]
    simp [base64DecodeGroups_encode bytes hb]

/-! ## The outcome of a call -/

/-- C1 (as stated, refuted): a process that writes only a line break and exits
with code 0 gets a success result whose text block is not what it wrote. -/
theorem C1_counterexample_blank_stdout :
    (executeClaudeCli { prompt := some "hi" }
        { beforeDeadline := [.stdoutData "\n", .close (some 0)] }).result.isError = false ∧
    (executeClaudeCli { prompt := some "hi" }
        { beforeDeadline := [.stdoutData "\n", .close (some 0)] }).result.content ≠
      [{ type := "text", text := capturedStdout [.stdoutData "\n"] }] := by
  decide

/-- C1 (amended): when the process exits with code 0 before the deadline and
the captured stdout is not blank (its `trim()` is non-empty), the result is a
success whose single text block is the captured stdout, unchanged. -/
theorem C1_success_returns_stdout (o : Options) (w : World) (pre post : List ProcEvent)
    (hreq : truthy o.prompt = true ∨ truthy o.command = true)
    (hspawn : w.spawnThrows = none)
    (hev : w.beforeDeadline = pre ++ ProcEvent.close (some 0) :: post)
    (hpre : ∀ e ∈ pre, e.resolves = false)
    (hs : jsTrim (capturedStdout pre) ≠ "") :
    (executeClaudeCli o w).result.isError = false ∧
    (executeClaudeCli o w).result.content =
      [{ type := "text", text := capturedStdout pre }] := by
  obtain ⟨st0, h1, h2, h3, hres⟩ := result_of_spawned o w hreq hspawn
  rw [hres, hev]
  have hx := runEvents_close w pre post (some 0) hpre st0 h3
  simp only [raceResult, hx, h1, h2, empty_append_str]
  simp [formatResult, truthy, hs]

/-- C1, an instance: stdout "ok", exit code 0. -/
theorem C1_success_returns_stdout_witness :
    (executeClaudeCli { prompt := some "hi" }
        { beforeDeadline := [.stdoutData "ok", .close (some 0)] }).result.isError = false ∧
    (executeClaudeCli { prompt := some "hi" }
        { beforeDeadline := [.stdoutData "ok", .close (some 0)] }).result.content =
      [{ type := "text", text := capturedStdout [.stdoutData "ok"] }] :=
  C1_success_returns_stdout { prompt := some "hi" }
    { beforeDeadline := [.stdoutData "ok", .close (some 0)] } [.stdoutData "ok"] []
    (Or.inl rfl) rfl rfl (by decide) (by decide)

/-- C2: when the process exits with a non-zero code `n` before the deadline,
the result is the failure whose text is "Error executing Claude Code: Process
exited with code n", a blank line, and the captured stderr. -/
theorem C2_nonzero_exit_failure (o : Options) (w : World) (pre post : List ProcEvent) (n : Int)
    (hreq : truthy o.prompt = true ∨ truthy o.command = true)
    (hspawn : w.spawnThrows = none)
    (hev : w.beforeDeadline = pre ++ ProcEvent.close (some n) :: post)
    (hpre : ∀ e ∈ pre, e.resolves = false)
    (hn : n ≠ 0) :
    (executeClaudeCli o w).result =
      { content := [{ type := "text",
                      text := "Error executing Claude Code: Process exited with code " ++
                        toString n ++ "\n\n" ++ capturedStderr pre }],
        isError := true,
        metadata := none } := by
  obtain ⟨st0, h1, h2, h3, hres⟩ := result_of_spawned o w hreq hspawn
  rw [hres, hev]
  have hx := runEvents_close w pre post (some n) hpre st0 h3
  have hcode : (some n ≠ some (0 : Int)) := by simpa using hn
  simp only [raceResult, hx, h1, h2, empty_append_str, if_pos hcode, codeStr]
  rw [formatResult_error _ _ _ ("Process exited with code " ++ toString n) rfl
    (append_ne_empty _ _ (by decide))]
  simp only [← String.append_assoc]
  rfl

/-- C2, an instance: stderr "boom", exit code 2. -/
theorem C2_nonzero_exit_failure_witness :
    (2 : Int) ≠ 0 ∧
    (executeClaudeCli { command := some "--version" }
        { beforeDeadline := [.stderrData "boom", .close (some 2)] }).result =
      { content := [{ type := "text",
                      text := "Error executing Claude Code: Process exited with code " ++
                        toString (2 : Int) ++ "\n\n" ++ capturedStderr [.stderrData "boom"] }],
        isError := true,
        metadata := none } :=
  ⟨by decide, C2_nonzero_exit_failure { command := some "--version" }
    { beforeDeadline := [.stderrData "boom", .close (some 2)] } [.stderrData "boom"] [] 2
    (Or.inr rfl) rfl rfl (by decide) (by decide)⟩

/-- C3: when no `close` or `error` event comes before the deadline, the
result is the timed-out failure, whatever was captured before the deadline
and whatever happens during the grace period. -/
theorem C3_timeout_result (o : Options) (w : World)
    (hreq : truthy o.prompt = true ∨ truthy o.command = true)
    (hspawn : w.spawnThrows = none)
    (hpending : ∀ e ∈ w.beforeDeadline, e.resolves = false) :
    (executeClaudeCli o w).result =
      { content := [{ type := "text",
                      text := "Error executing Claude Code: Command timed out after " ++
                        toString (o.timeout.getD 900000) ++
                        "ms\n\nCommand execution timed out." }],
        isError := true,
        metadata := none } := by
  obtain ⟨st0, _, _, h3, hres⟩ := result_of_spawned o w hreq hspawn
  rw [hres]
  obtain ⟨_, _, h, _⟩ := runEvents_pending w w.beforeDeadline hpending st0
  rw [h3] at h
  simp only [raceResult, h]
  rw [formatResult_error _ _ _ ("Command timed out after " ++ toString (o.timeout.getD 900000)
    ++ "ms") rfl (by rw [String.append_assoc]; exact append_ne_empty _ _ (by decide))]
  simp only [timeoutResult, String.append_assoc]
  rfl

/-- C3, an instance: a child that has written output, ignores SIGTERM and is
still running when the grace timer fires, with a timeout of 5 ms. -/
theorem C3_timeout_result_witness :
    (executeClaudeCli { prompt := some "hi", timeout := some 5 }
        { beforeDeadline := [.stdoutData "partial"], duringGrace := [.stdoutData "more"] }).result =
      { content := [{ type := "text",
                      text := "Error executing Claude Code: Command timed out after " ++
                        toString ((some 5 : Option Nat).getD 900000) ++
                        "ms\n\nCommand execution timed out." }],
        isError := true,
        metadata := none } :=
  C3_timeout_result { prompt := some "hi", timeout := some 5 }
    { beforeDeadline := [.stdoutData "partial"], duringGrace := [.stdoutData "more"] }
    (Or.inl rfl) rfl (by decide)

/-- C4: when the child emits `error` with message `m` before the deadline,
the result is the failure whose text is "Error executing Claude Code: Failed
to execute command: m", a blank line, the stderr captured so far, a newline
and `m`. -/
theorem C4_spawn_error_failure (o : Options) (w : World) (pre post : List ProcEvent)
    (e : JsError)
    (hreq : truthy o.prompt = true ∨ truthy o.command = true)
    (hspawn : w.spawnThrows = none)
    (hev : w.beforeDeadline = pre ++ ProcEvent.error e :: post)
    (hpre : ∀ x ∈ pre, x.resolves = false) :
    (executeClaudeCli o w).result =
      { content := [{ type := "text",
                      text := "Error executing Claude Code: Failed to execute command: " ++
                        e.message ++ "\n\n" ++ capturedStderr pre ++ "\n" ++ e.message }],
        isError := true,
        metadata := none } := by
  obtain ⟨st0, h1, h2, h3, hres⟩ := result_of_spawned o w hreq hspawn
  rw [hres, hev]
  have hx := runEvents_error w pre post e hpre st0 h3
  simp only [raceResult, hx, h1, h2, empty_append_str]
  rw [formatResult_error _ _ _ ("Failed to execute command: " ++ e.message) rfl
    (append_ne_empty _ _ (by decide))]
  simp only [← String.append_assoc]
  rfl

/-- C4, an instance: `spawn bash ENOENT`. -/
theorem C4_spawn_error_failure_witness :
    (executeClaudeCli { prompt := some "hi" }
        { beforeDeadline := [.error { name := "Error", message := "spawn bash ENOENT" }] }).result =
      { content := [{ type := "text",
                      text := "Error executing Claude Code: Failed to execute command: " ++
                        "spawn bash ENOENT" ++ "\n\n" ++ capturedStderr [] ++ "\n" ++
                        "spawn bash ENOENT" }],
        isError := true,
        metadata := none } :=
  C4_spawn_error_failure { prompt := some "hi" }
    { beforeDeadline := [.error { name := "Error", message := "spawn bash ENOENT" }] } [] []
    { name := "Error", message := "spawn bash ENOENT" } (Or.inl rfl) rfl rfl (by decide)

/-- C5 (as stated, refuted): with logPrefix "code-editor", a process that
writes nothing and exits with code 0 gets a success result without the
`emptyOutput` flag. -/
theorem C5_counterexample_code_editor :
    (executeClaudeCli { prompt := some "hi", logPrefix := some "code-editor" }
        { beforeDeadline := [.close (some 0)] }).result =
      { content := [{ type := "text", text := "(no content)\n" }],
        isError := false,
        metadata := some { exitCode := 0, sessionId := "", emptyOutput := none } } := by
  decide

/-- C5 (amended): for every request whose logPrefix is not "code-editor",
when the process exits with code 0 before the deadline having written nothing
on stdout, the result is a success whose metadata has `emptyOutput = true`. -/
theorem C5_empty_output_flag (o : Options) (w : World) (pre post : List ProcEvent)
    (hreq : truthy o.prompt = true ∨ truthy o.command = true)
    (hspawn : w.spawnThrows = none)
    (hev : w.beforeDeadline = pre ++ ProcEvent.close (some 0) :: post)
    (hpre : ∀ e ∈ pre, e.resolves = false)
    (hzero : capturedStdout pre = "")
    (hlabel : o.logPrefix ≠ some "code-editor") :
    (executeClaudeCli o w).result.isError = false ∧
    (executeClaudeCli o w).result.metadata =
      some { exitCode := 0, sessionId := w.uuid, emptyOutput := some true } := by
  obtain ⟨st0, h1, h2, h3, hres⟩ := result_of_spawned o w hreq hspawn
  rw [hres, hev]
  have hx := runEvents_close w pre post (some 0) hpre st0 h3
  have hlp : o.logPrefix.getD "claude-code" ≠ "code-editor" := by
    cases hl : o.logPrefix with
    | none => decide
    | some l =>
        intro h
        apply hlabel
        rw [hl]
        simpa using h
  have htrim : jsTrim "" = "" := by decide
  simp only [raceResult, hx, h1, h2, empty_append_str, hzero]
  simp [formatResult, truthy, htrim, hlp]

/-- C5, an instance: the default logPrefix, no output, exit code 0. -/
theorem C5_empty_output_flag_witness :
    (executeClaudeCli { prompt := some "hi" }
        { beforeDeadline := [.stderrData "note", .close (some 0)], uuid := "u-1" }).result.isError
      = false ∧
    (executeClaudeCli { prompt := some "hi" }
        { beforeDeadline := [.stderrData "note", .close (some 0)], uuid := "u-1" }).result.metadata =
      some { exitCode := 0, sessionId := "u-1", emptyOutput := some true } :=
  C5_empty_output_flag { prompt := some "hi" }
    { beforeDeadline := [.stderrData "note", .close (some 0)], uuid := "u-1" }
    [.stderrData "note"] [] (Or.inl rfl) rfl rfl (by decide) (by decide) (by decide)

/-- C6: the result is flagged `isError = false` exactly when a process was
spawned (a prompt or a command was given and `spawn` did not throw) and the
first `close` or `error` event before the deadline is `close` with code 0;
in every other case (another exit code, a signal exit, an `error` event, a
timeout, neither prompt nor command, `spawn` throwing) it is `true`. -/
theorem C6_isError_iff_not_clean_exit (o : Options) (w : World) :
    (executeClaudeCli o w).result.isError = false ↔
      ((truthy o.prompt = true ∨ truthy o.command = true) ∧ w.spawnThrows = none ∧
        firstResolving w.beforeDeadline = some (ProcEvent.close (some 0))) := by
  by_cases hreq : truthy o.prompt = true ∨ truthy o.command = true
  · cases hspawn : w.spawnThrows with
    | some e =>
        obtain ⟨cmd, hcmd⟩ := buildCommand_ok (userDirectory w) (claudePath w) o.prompt
          o.command (o.allowedTools.getD []) hreq
        simp [executeClaudeCli, hcmd, hspawn, caughtResult]
    | none =>
        rw [isError_of_spawned o w hreq hspawn]
        constructor
        · intro h
          refine ⟨hreq, rfl, ?_⟩
          split at h
          · assumption
          · exact absurd h (by decide)
        · rintro ⟨_, _, h⟩
          rw [h]
          rfl
  · have hp : truthy o.prompt = false := by
      cases h : truthy o.prompt
      · rfl
      · exact absurd (Or.inl h) hreq
    have hc : truthy o.command = false := by
      cases h : truthy o.command
      · rfl
      · exact absurd (Or.inr h) hreq
    simp [executeClaudeCli, buildCommand, hp, hc, caughtResult]

/-- C7: `executeClaudeCli` always returns a result whose content is one text
block; an exception thrown while the command is built, or by `spawn`, is
returned as the error result "Error: <message>" with `isError = true`. -/
theorem C7_failures_are_returned (o : Options) (w : World) :
    (∃ t, (executeClaudeCli o w).result.content = [{ type := "text", text := t }]) ∧
    (∀ e, buildCommand (userDirectory w) (claudePath w) o.prompt o.command
        (o.allowedTools.getD []) = .error e →
      (executeClaudeCli o w).result =
        { content := [{ type := "text", text := "Error: " ++ errorText e }],
          isError := true, metadata := none }) ∧
    (∀ cmd e, buildCommand (userDirectory w) (claudePath w) o.prompt o.command
        (o.allowedTools.getD []) = .ok cmd → w.spawnThrows = some e →
      (executeClaudeCli o w).result =
        { content := [{ type := "text", text := "Error: " ++ errorText e }],
          isError := true, metadata := none }) := by
  refine ⟨?_, ?_, ?_⟩
  · cases hb : buildCommand (userDirectory w) (claudePath w) o.prompt o.command
      (o.allowedTools.getD []) with
    | error e => exact ⟨"Error: " ++ errorText e, by simp only [executeClaudeCli, hb, caughtResult]⟩
    | ok cmd =>
        cases hs : w.spawnThrows with
        | some e =>
            exact ⟨"Error: " ++ errorText e, by simp only [executeClaudeCli, hb, hs, caughtResult]⟩
        | none =>
            simp only [executeClaudeCli, hb, hs]
            exact formatResult_content _ _ _
  · intro e hb
    simp only [executeClaudeCli, hb, caughtResult]
  · intro cmd e hb hs
    simp only [executeClaudeCli, hb, hs, caughtResult]

/-- C7, two instances: a request with neither prompt nor command, and a
`spawn` that throws. -/
theorem C7_failures_are_returned_witness :
    (executeClaudeCli {} {}).result =
      { content := [{ type := "text",
                      text := "Error: " ++
                        errorText (newError "Either prompt or command must be provided") }],
        isError := true, metadata := none } ∧
    (executeClaudeCli { command := some "--version" }
        { spawnThrows := some { name := "Error", message := "spawn EAGAIN" } }).result =
      { content := [{ type := "text",
                      text := "Error: " ++ errorText { name := "Error", message := "spawn EAGAIN" } }],
        isError := true, metadata := none } :=
  ⟨(C7_failures_are_returned {} {}).2.1 _ rfl,
   (C7_failures_are_returned { command := some "--version" }
      { spawnThrows := some { name := "Error", message := "spawn EAGAIN" } }).2.2 _ _ rfl rfl⟩

/-! ## The transport of the prompt -/

/-- C8: for every prompt `p`, the shell command holds `base64Prompt p` between
`echo "` and `" | base64 -d`, and decoding that text (with or without the
newline `echo` appends) yields exactly the UTF-8 bytes of `p`. -/
theorem C8_prompt_base64_roundtrip (o : Options) (w : World) (p : String)
    (hp : o.prompt = some p) (hne : p ≠ "") :
    (executeClaudeCli o w).spawnCalls.map SpawnCall.args =
      [["-c", promptCommandHead (userDirectory w) ++ base64Prompt p ++
        promptCommandTail (claudePath w) (jsJoin "," (o.allowedTools.getD []))]] ∧
    base64Decode (base64Prompt p).toList = some (utf8Bytes p) ∧
    base64Decode ((base64Prompt p).toList ++ ['\n']) = some (utf8Bytes p) := by
  refine ⟨by rw [spawnCalls_of_prompt o w p hp hne]; rfl, ?_⟩
  exact base64Decode_encode (utf8Bytes p) (utf8Bytes_lt p)

/-- C8, an instance: a prompt with quotes, backticks and `$()`. -/
theorem C8_prompt_base64_roundtrip_witness :
    "say \"hi\" `id` $(pwd)" ≠ "" ∧
    (executeClaudeCli { prompt := some "say \"hi\" `id` $(pwd)" } {}).spawnCalls.map SpawnCall.args =
      [["-c", promptCommandHead (userDirectory {}) ++ base64Prompt "say \"hi\" `id` $(pwd)" ++
        promptCommandTail (claudePath {}) (jsJoin "," ((none : Option (List String)).getD []))]] ∧
    base64Decode (base64Prompt "say \"hi\" `id` $(pwd)").toList =
      some (utf8Bytes "say \"hi\" `id` $(pwd)") ∧
    base64Decode ((base64Prompt "say \"hi\" `id` $(pwd)").toList ++ ['\n']) =
      some (utf8Bytes "say \"hi\" `id` $(pwd)") :=
  ⟨by decide, C8_prompt_base64_roundtrip { prompt := some "say \"hi\" `id` $(pwd)" } {}
    "say \"hi\" `id` $(pwd)" rfl (by decide)⟩

/-- C9: for every prompt `p`, the text put into the shell command in place of
`p` is `base64Prompt p`, and each of its characters is one of `A-Z`, `a-z`,
`0-9`, `+`, `/`, `=`; none is a quote, a backtick, `$`, `;`, `|` or a
newline. -/
theorem C9_encoded_prompt_is_shell_safe (o : Options) (w : World) (p : String)
    (hp : o.prompt = some p) (hne : p ≠ "") :
    (executeClaudeCli o w).spawnCalls.map SpawnCall.args =
      [["-c", promptCommandHead (userDirectory w) ++ base64Prompt p ++
        promptCommandTail (claudePath w) (jsJoin "," (o.allowedTools.getD []))]] ∧
    ∀ c ∈ (base64Prompt p).toList, isBase64Char c = true ∧ c ∉ shellMetaChars := by
  refine ⟨by rw [spawnCalls_of_prompt o w p hp hne]; rfl, ?_⟩
  intro c hc
  have h := base64Encode_chars (utf8Bytes p) c hc
  exact ⟨h, base64_not_meta c h⟩

/-- C9, an instance: a prompt made of shell metacharacters. -/
theorem C9_encoded_prompt_is_shell_safe_witness :
    "\"; rm -rf / | `id` $(pwd)\n" ≠ "" ∧
    (executeClaudeCli { prompt := some "\"; rm -rf / | `id` $(pwd)\n" } {}).spawnCalls.map
        SpawnCall.args =
      [["-c", promptCommandHead (userDirectory {}) ++
        base64Prompt "\"; rm -rf / | `id` $(pwd)\n" ++
        promptCommandTail (claudePath {}) (jsJoin "," ((none : Option (List String)).getD []))]] ∧
    ∀ c ∈ (base64Prompt "\"; rm -rf / | `id` $(pwd)\n").toList,
      isBase64Char c = true ∧ c ∉ shellMetaChars :=
  ⟨by decide, C9_encoded_prompt_is_shell_safe { prompt := some "\"; rm -rf / | `id` $(pwd)\n" } {}
    "\"; rm -rf / | `id` $(pwd)\n" rfl (by decide)⟩

/-! ## Requests without prompt and command -/

/-- C10: when neither a prompt nor a command is given (each absent or empty),
no command is built, `spawn` is not called, and the result is the error
result with text "Error: Either prompt or command must be provided"; this
holds for `executeClaudeCli` and for the handler of the ClaudeCode tool. -/
theorem C10_neither_prompt_nor_command (w : World) :
    (∀ o : Options, truthy o.prompt = false → truthy o.command = false →
      buildCommand (userDirectory w) (claudePath w) o.prompt o.command (o.allowedTools.getD []) =
        .error (newError "Either prompt or command must be provided") ∧
      (executeClaudeCli o w).spawnCalls = [] ∧
      (executeClaudeCli o w).result =
        { content := [{ type := "text",
                        text := "Error: Either prompt or command must be provided" }],
          isError := true, metadata := none }) ∧
    (∀ args : ClaudeCodeArgs, truthy args.prompt = false → truthy args.command = false →
      (claudeCodeTool.handler args w).spawnCalls = [] ∧
      (claudeCodeTool.handler args w).result =
        { content := [{ type := "text",
                        text := "Error: Either prompt or command must be provided" }],
          isError := true, metadata := none }) := by
  have htext : "Error: " ++ errorText (newError "Either prompt or command must be provided") =
      "Error: Either prompt or command must be provided" := by decide
  constructor
  · intro o hp hc
    have hb : buildCommand (userDirectory w) (claudePath w) o.prompt o.command
        (o.allowedTools.getD []) =
        .error (newError "Either prompt or command must be provided") := by
      simp [buildCommand, hp, hc]
    refine ⟨hb, ?_, ?_⟩
    · simp only [executeClaudeCli, hb]
    · simp only [executeClaudeCli, hb, caughtResult, htext]
  · intro args hp hc
    constructor
    · simp [claudeCodeTool.handler, hp, hc]
    · simp only [claudeCodeTool.handler, hp, hc, caughtResult, htext]
      rfl

/-- C10, two instances: an options object with an empty prompt and no
command, and a handler call without arguments. -/
theorem C10_neither_prompt_nor_command_witness :
    ((executeClaudeCli { prompt := some "" } {}).spawnCalls = [] ∧
      (executeClaudeCli { prompt := some "" } {}).result =
        { content := [{ type := "text",
                        text := "Error: Either prompt or command must be provided" }],
          isError := true, metadata := none }) ∧
    ((claudeCodeTool.handler {} {}).spawnCalls = [] ∧
      (claudeCodeTool.handler {} {}).result =
        { content := [{ type := "text",
                        text := "Error: Either prompt or command must be provided" }],
          isError := true, metadata := none }) :=
  ⟨((C10_neither_prompt_nor_command {}).1 { prompt := some "" } rfl rfl).2,
   (C10_neither_prompt_nor_command {}).2 {} rfl rfl⟩

/-! ## Prompt and raw command -/

/-- C11 (as stated, refuted): a request with both a prompt and a command is
not rejected: the prompt command is spawned and, when the process exits with
code 0, the result is a success. -/
theorem C11_counterexample_both_supplied :
    (executeClaudeCli { prompt := some "hi", command := some "--version" }
        { beforeDeadline := [.stdoutData "ok", .close (some 0)] }).result =
      { content := [{ type := "text", text := "ok" }],
        isError := false,
        metadata := some { exitCode := 0, sessionId := "" } } ∧
    (executeClaudeCli { prompt := some "hi", command := some "--version" }
        { beforeDeadline := [.stdoutData "ok", .close (some 0)] }).spawnCalls =
      [{ file := "bash",
         args := ["-c", promptCommandHead "/path/to/project/directory" ++ base64Prompt "hi" ++
           promptCommandTail "/path/to/claude/executable" ""],
         stdio := ["ignore", "pipe", "pipe"] }] :=
  ⟨rfl, rfl⟩

/-- C11 (amended): for every request in which both a prompt and a command are
supplied, the prompt path is taken and the command is ignored: the run (the
`spawn` call, the signals, the log and the result) is that of the same request
without the command. -/
theorem C11_prompt_takes_precedence (o : Options) (w : World)
    (hp : truthy o.prompt = true) (_hc : truthy o.command = true) :
    executeClaudeCli o w = executeClaudeCli { o with command := none } w ∧
    (executeClaudeCli o w).spawnCalls =
      [{ file := "bash",
         args := ["-c", promptCommandHead (userDirectory w) ++ base64Prompt (o.prompt.getD "") ++
           promptCommandTail (claudePath w) (jsJoin "," (o.allowedTools.getD []))],
         stdio := ["ignore", "pipe", "pipe"] }] := by
  have hb : ∀ c : Option String, buildCommand (userDirectory w) (claudePath w) o.prompt c
      (o.allowedTools.getD []) =
      .ok (promptCommandHead (userDirectory w) ++ base64Prompt (o.prompt.getD "") ++
        promptCommandTail (claudePath w) (jsJoin "," (o.allowedTools.getD []))) := by
    intro c
    unfold buildCommand
    rw [if_pos hp]
  constructor
  · simp only [executeClaudeCli, hb]
  · cases hs : w.spawnThrows with
    | some e => simp only [executeClaudeCli, hb, hs]
    | none => simp only [executeClaudeCli, hb, hs]

/-- C11, an instance: prompt "hi" and command "--version". -/
theorem C11_prompt_takes_precedence_witness :
    executeClaudeCli { prompt := some "hi", command := some "--version" } {} =
      executeClaudeCli { ({ prompt := some "hi", command := some "--version" } : Options) with
        command := none } {} ∧
    (executeClaudeCli { prompt := some "hi", command := some "--version" } {}).spawnCalls =
      [{ file := "bash",
         args := ["-c", promptCommandHead (userDirectory {}) ++
           base64Prompt ((some "hi" : Option String).getD "") ++
           promptCommandTail (claudePath {}) (jsJoin "," ((none : Option (List String)).getD []))],
         stdio := ["ignore", "pipe", "pipe"] }] :=
  C11_prompt_takes_precedence { prompt := some "hi", command := some "--version" } {} rfl rfl

/-- The command line of a raw command does not depend on the capability
list. -/
theorem rawCommand_ignores_allowedTools (o : Options) (w : World) (tools : Option (List String))
    (hp : truthy o.prompt = false) :
    (executeClaudeCli { o with allowedTools := tools } w).spawnCalls =
      (executeClaudeCli o w).spawnCalls := by
  have hb : ∀ t : List String, buildCommand (userDirectory w) (claudePath w) o.prompt o.command t =
      buildCommand (userDirectory w) (claudePath w) o.prompt o.command [] := by
    intro t
    simp only [buildCommand, hp, Bool.false_eq_true, if_false]
  simp only [executeClaudeCli]
  rw [hb (tools.getD []), hb (o.allowedTools.getD [])]
  cases buildCommand (userDirectory w) (claudePath w) o.prompt o.command [] with
  | error e => rfl
  | ok cmd =>
      cases w.spawnThrows with
      | some e => rfl
      | none => rfl

set_option maxRecDepth 20000 in
/-- C12 (the code at a failing input): a raw command with the capability list
`["Read", "Grep"]` is run by a command line that has no `--allowedTools`
argument and does not mention the capabilities. -/
theorem C12_raw_command_drops_allowedTools :
    (executeClaudeCli { command := some "--continue", allowedTools := some ["Read", "Grep"] }
        {}).spawnCalls =
      [{ file := "bash",
         args := ["-c", "export PATH=\"/path/to/node/bin:$PATH\" && cd \"/path/to/project/directory\" && /path/to/claude/executable --continue"],
         stdio := ["ignore", "pipe", "pipe"] }] ∧
    ¬ ("--allowedTools".toList <:+:
        ("export PATH=\"/path/to/node/bin:$PATH\" && cd \"/path/to/project/directory\" && /path/to/claude/executable --continue").toList) := by
  decide

/-- C14: for every raw command `c` supplied with no prompt (absent or empty),
the shell command is exactly `export PATH="/path/to/node/bin:$PATH" && cd
"<working directory>" && <executable path> <c>`, with `c` unchanged. -/
theorem C14_raw_command_verbatim (o : Options) (w : World) (c : String)
    (hp : truthy o.prompt = false) (hc : o.command = some c) (hne : c ≠ "") :
    (executeClaudeCli o w).spawnCalls =
      [{ file := "bash",
         args := ["-c", "export PATH=\"/path/to/node/bin:$PATH\" && cd \"" ++ userDirectory w ++
           "\" && " ++ claudePath w ++ " " ++ c],
         stdio := ["ignore", "pipe", "pipe"] }] := by
  have ht : truthy o.command = true := by simp [hc, truthy, hne]
  have hb : buildCommand (userDirectory w) (claudePath w) o.prompt o.command
      (o.allowedTools.getD []) =
      .ok ("export PATH=\"/path/to/node/bin:$PATH\" && cd \"" ++ userDirectory w ++
           "\" && " ++ claudePath w ++ " " ++ c) := by
    unfold buildCommand
    rw [hp, hc] at *
    simp [ht]
  cases hs : w.spawnThrows with
  | some e => simp only [executeClaudeCli, hb, hs]
  | none => simp only [executeClaudeCli, hb, hs]

/-- C14, an instance: a command with quotes, a backtick pair and `$()`. -/
theorem C14_raw_command_verbatim_witness :
    (executeClaudeCli { command := some "-p \"say `id` $(pwd)\"" }
        { CC_USER_DIRECTORY := some "/home/u/proj" }).spawnCalls =
      [{ file := "bash",
         args := ["-c", "export PATH=\"/path/to/node/bin:$PATH\" && cd \"" ++
           userDirectory { CC_USER_DIRECTORY := some "/home/u/proj" } ++
           "\" && " ++ claudePath { CC_USER_DIRECTORY := some "/home/u/proj" } ++ " " ++
           "-p \"say `id` $(pwd)\""],
         stdio := ["ignore", "pipe", "pipe"] }] :=
  C14_raw_command_verbatim { command := some "-p \"say `id` $(pwd)\"" }
    { CC_USER_DIRECTORY := some "/home/u/proj" } "-p \"say `id` $(pwd)\"" rfl rfl (by decide)

/-! ## The capability list as an argument -/

/-- The characters of a joined list come from the separator and the
elements. -/
theorem jsJoin_chars (P : Char → Prop) (sep : String) (xs : List String)
    (hsep : ∀ c ∈ sep.toList, P c) (hxs : ∀ x ∈ xs, ∀ c ∈ x.toList, P c) :
    ∀ c ∈ (jsJoin sep xs).toList, P c := by
  have go : ∀ (rest : List String) (acc : String), (∀ c ∈ acc.toList, P c) →
      (∀ x ∈ rest, ∀ c ∈ x.toList, P c) →
      ∀ c ∈ (String.intercalate.go acc sep rest).toList, P c := by
    intro rest
    induction rest with
    | nil => intro acc hacc _; simpa [String.intercalate.go] using hacc
    | cons x rest ih =>
        intro acc hacc hrest
        simp only [String.intercalate.go]
        apply ih
        · intro c hc
          simp only [String.toList, String.data_append, List.mem_append] at hc
          rcases hc with (hc | hc) | hc
          · exact hacc c hc
          · exact hsep c hc
          · exact hrest x (List.mem_cons_self _ _) c hc
        · intro y hy
          exact hrest y (List.mem_cons_of_mem _ hy)
  cases xs with
  | nil => intro c hc; simp [jsJoin, String.intercalate] at hc
  | cons x rest =>
      simp only [jsJoin, String.intercalate]
      exact go rest x (hxs x (List.mem_cons_self _ _))
        (fun y hy => hxs y (List.mem_cons_of_mem _ hy))

/-- Inside double quotes, characters without a special meaning are added to
the word as they are. -/
theorem shellStep_quoted (body : List Char) (hbody : ∀ c ∈ body, isQuoteSpecial c = false)
    (words : List String) (acc : List Char) :
    body.foldl shellStep (some { words := words, cur := some acc, inQuotes := true }) =
      some { words := words, cur := some (acc ++ body), inQuotes := true } := by
  induction body generalizing acc with
  | nil => simp
  | cons c rest ih =>
      have hc : isQuoteSpecial c = false := hbody c (List.mem_cons_self _ _)
      have hrest : ∀ x ∈ rest, isQuoteSpecial x = false :=
        fun x hx => hbody x (List.mem_cons_of_mem _ hx)
      simp only [isQuoteSpecial, Bool.or_eq_false_iff, decide_eq_false_iff_not] at hc
      obtain ⟨⟨⟨c1, c2⟩, c3⟩, c4⟩ := hc
      have hstep : shellStep (some { words := words, cur := some acc, inQuotes := true }) c =
          some { words := words, cur := some (acc ++ [c]), inQuotes := true } := by
        simp [shellStep, c1, c2, c3, c4]
      rw [List.foldl_cons, hstep, ih hrest]
      simp

/-- The words of the arguments of the executable, for a tools string without
characters that are special inside double quotes. -/
theorem shellWords_claudeArguments (toolsString : String)
    (h : ∀ c ∈ toolsString.toList, isQuoteSpecial c = false) :
    shellWords (claudeArguments toolsString) =
      some ["-p", "/dev/stdin", "--allowedTools", toolsString] := by
  have hl : (claudeArguments toolsString).toList =
      " -p /dev/stdin --allowedTools \"".toList ++ (toolsString.toList ++ [Char.ofNat 34]) := by
    simp [claudeArguments, String.toList]
  have hpre : " -p /dev/stdin --allowedTools \"".toList.foldl shellStep (some {}) =
      some { words := ["-p", "/dev/stdin", "--allowedTools"], cur := some [], inQuotes := true } := by
    decide
  unfold shellWords
  rw [hl, List.foldl_append, hpre, List.foldl_append, shellStep_quoted _ h]
  simp [shellStep, ShellState.allWords]

/-- The tail of the prompt command: the pipe, the executable path and its
arguments. -/
theorem promptCommandTail_eq (claudePath toolsString : String) :
    promptCommandTail claudePath toolsString =
      "\" | base64 -d | " ++ claudePath ++ claudeArguments toolsString := by
  simp [promptCommandTail, claudeArguments, String.append_assoc]

/-- C13 (as stated, refuted): with the capability name `a" "b`, the words
after the executable path are `-p`, `/dev/stdin`, `--allowedTools`, `a` and
`b`: two arguments follow `--allowedTools`, and neither is the name. -/
theorem C13_counterexample_quote_in_name :
    (executeClaudeCli { prompt := some "hi", allowedTools := some ["a\" \"b"] } {}).spawnCalls.map
        SpawnCall.args =
      [["-c", promptCommandHead "/path/to/project/directory" ++ base64Prompt "hi" ++
        "\" | base64 -d | " ++ "/path/to/claude/executable" ++
        claudeArguments (jsJoin "," ["a\" \"b"])]] ∧
    shellWords (claudeArguments (jsJoin "," ["a\" \"b"])) =
      some ["-p", "/dev/stdin", "--allowedTools", "a", "b"] :=
  ⟨rfl, rfl⟩

/-- C13 (amended): for every prompt request and every ordered list of
capability names (the empty list too) in which no name contains a double
quote, `$`, a backtick or a backslash, the shell command ends with the
executable path followed by ` -p /dev/stdin --allowedTools "<names joined by
','>"`, and the shell makes of this exactly one argument after
`--allowedTools`, whose value is the names joined by `,` in their order. -/
theorem C13_tools_single_argument (o : Options) (w : World) (p : String)
    (hp : o.prompt = some p) (hne : p ≠ "")
    (hnames : ∀ name ∈ o.allowedTools.getD [], ∀ c ∈ name.toList, isQuoteSpecial c = false) :
    (executeClaudeCli o w).spawnCalls.map SpawnCall.args =
      [["-c", promptCommandHead (userDirectory w) ++ base64Prompt p ++
        "\" | base64 -d | " ++ claudePath w ++
        claudeArguments (jsJoin "," (o.allowedTools.getD []))]] ∧
    shellWords (claudeArguments (jsJoin "," (o.allowedTools.getD []))) =
      some ["-p", "/dev/stdin", "--allowedTools", jsJoin "," (o.allowedTools.getD [])] := by
  constructor
  · rw [spawnCalls_of_prompt o w p hp hne, promptCommandTail_eq]
    simp [String.append_assoc]
  · apply shellWords_claudeArguments
    exact jsJoin_chars (fun c => isQuoteSpecial c = false) "," _ (by decide) hnames

/-- C13, two instances: the names `Bash(git log:*)` and `Read`, and the empty
list. -/
theorem C13_tools_single_argument_witness :
    shellWords (claudeArguments (jsJoin "," ["Bash(git log:*)", "Read"])) =
      some ["-p", "/dev/stdin", "--allowedTools", jsJoin "," ["Bash(git log:*)", "Read"]] ∧
    shellWords (claudeArguments (jsJoin "," [])) =
      some ["-p", "/dev/stdin", "--allowedTools", jsJoin "," []] :=
  ⟨(C13_tools_single_argument
      { prompt := some "hi", allowedTools := some ["Bash(git log:*)", "Read"] } {} "hi" rfl
      (by decide) (by decide)).2,
   (C13_tools_single_argument { prompt := some "hi", allowedTools := some [] } {} "hi" rfl
      (by decide) (by decide)).2⟩

/-! ## Signals and captured streams -/

/-- The handlers send no signal and do not touch `childProcess.killed`; a
child that is gone stays gone. -/
theorem runEvents_signals (w : World) (events : List ProcEvent) (st : ExecState) :
    (runEvents w st events).signals = st.signals ∧
    (runEvents w st events).killed = st.killed ∧
    (st.running = false → (runEvents w st events).running = false) := by
  induction events generalizing st with
  | nil => simp [runEvents]
  | cons e rest ih =>
      rw [runEvents_cons]
      obtain ⟨h1, h2, h3⟩ := ih (onEvent w st e)
      have hs : (onEvent w st e).signals = st.signals ∧ (onEvent w st e).killed = st.killed ∧
          (st.running = false → (onEvent w st e).running = false) := by
        cases e with
        | stdoutData chunk => simp [onEvent]
        | stderrData chunk => simp [onEvent]
        | exit => simp [onEvent]
        | close code =>
            simp only [onEvent, resolveExecute]
            split <;> [skip; split] <;> simp
        | error err =>
            simp only [onEvent, resolveExecute]
            split <;> [skip; split] <;> simp
      refine ⟨h1.trans hs.1, h2.trans hs.2.1, fun hr => h3 (hs.2.2 hr)⟩

/-- The deadline callback on a child that is still running: SIGTERM is
delivered and `childProcess.killed` becomes `true`. -/
theorem onDeadline_running (timeout : Nat) (w : World) (st : ExecState)
    (h : st.running = true) :
    (onDeadline timeout w st).killed = true ∧
    (onDeadline timeout w st).signals = st.signals ++ ["SIGTERM"] := by
  unfold onDeadline kill
  simp only [h, if_true]
  split <;> exact ⟨rfl, rfl⟩

/-- The deadline callback on a child that is gone: no signal is delivered. -/
theorem onDeadline_gone (timeout : Nat) (w : World) (st : ExecState)
    (h : st.running = false) :
    (onDeadline timeout w st).killed = st.killed ∧
    (onDeadline timeout w st).signals = st.signals ∧
    (onDeadline timeout w st).running = false := by
  unfold onDeadline kill
  simp only [h, Bool.false_eq_true, if_false]
  split <;> exact ⟨rfl, rfl, rfl⟩

/-- In every run the signals delivered are none, or SIGTERM alone: SIGKILL is
never delivered. -/
theorem signals_without_sigkill (o : Options) (w : World) :
    (executeClaudeCli o w).signals = [] ∨ (executeClaudeCli o w).signals = ["SIGTERM"] := by
  cases hb : buildCommand (userDirectory w) (claudePath w) o.prompt o.command
      (o.allowedTools.getD []) with
  | error e => left; simp only [executeClaudeCli, hb]
  | ok cmd =>
      cases hs : w.spawnThrows with
      | some e => left; simp only [executeClaudeCli, hb, hs]
      | none =>
          simp only [executeClaudeCli, hb, hs]
          generalize hst : runEvents w _ w.beforeDeadline = st1
          have h0 : st1.signals = [] ∧ st1.killed = false := by
            rw [← hst]
            obtain ⟨h1, h2, _⟩ := runEvents_signals w w.beforeDeadline
              { fs := tryAppend w (writeLogHeader w (createTempDir w {}) (userDirectory w)
                  (claudePath w) (o.allowedTools.getD [])) ("Command: " ++ cmd ++ "\n") }
            exact ⟨h1, h2⟩
          unfold runTimers
          by_cases hres : st1.executeResult.isSome = true
          · left; rw [if_pos hres]; exact h0.1
          · rw [if_neg hres]
            obtain ⟨g1, g2, g3⟩ := runEvents_signals w w.duringGrace
              (onDeadline (o.timeout.getD 900000) w st1)
            cases hrun : st1.running with
            | true =>
                right
                obtain ⟨k1, k2⟩ := onDeadline_running (o.timeout.getD 900000) w st1 hrun
                unfold onGrace
                rw [g2, k1]
                simp only [Bool.not_true, Bool.false_eq_true, if_false]
                rw [g1, k2, h0.1]
                rfl
            | false =>
                left
                obtain ⟨k1, k2, k3⟩ := onDeadline_gone (o.timeout.getD 900000) w st1 hrun
                unfold onGrace kill
                rw [g3 k3]
                simp only [Bool.false_eq_true, if_false, ite_self]
                rw [g1, k2, h0.1]

/-- C15 (the code at a failing input): a child that ignores SIGTERM and is
still running when the grace timer fires was sent SIGTERM and nothing else. -/
theorem C15_no_sigkill_after_ignored_sigterm :
    (executeClaudeCli { prompt := some "hi", timeout := some 5 }
        { beforeDeadline := [], duringGrace := [.stdoutData "still here"] }).signals =
      ["SIGTERM"] := by
  decide

set_option maxRecDepth 20000 in
/-- C16 (as stated, refuted): a process that writes "OUT" on stdout and "ERR"
on stderr and exits with code 2 gets a failure result that holds "ERR" and
not "OUT". -/
theorem C16_counterexample_stdout_dropped :
    (executeClaudeCli { prompt := some "hi" }
        { beforeDeadline := [.stdoutData "OUT", .stderrData "ERR", .close (some 2)] }).result =
      { content := [{ type := "text",
                      text := "Error executing Claude Code: Process exited with code 2\n\nERR" }],
        isError := true,
        metadata := none } ∧
    ¬ ("OUT".toList <:+:
        "Error executing Claude Code: Process exited with code 2\n\nERR".toList) := by
  decide

/-- C16 (amended): for every process that exits with a non-zero code, the
failure result carries the exit code and the captured stderr text only: two
runs with the same exit code and the same stderr return the same result,
whatever each captured on stdout, and that result has no metadata. -/
theorem C16_failure_carries_stderr_only (o : Options) (w1 w2 : World)
    (pre1 post1 pre2 post2 : List ProcEvent) (n : Int)
    (hreq : truthy o.prompt = true ∨ truthy o.command = true)
    (hspawn1 : w1.spawnThrows = none) (hspawn2 : w2.spawnThrows = none)
    (hev1 : w1.beforeDeadline = pre1 ++ ProcEvent.close (some n) :: post1)
    (hev2 : w2.beforeDeadline = pre2 ++ ProcEvent.close (some n) :: post2)
    (hpre1 : ∀ e ∈ pre1, e.resolves = false) (hpre2 : ∀ e ∈ pre2, e.resolves = false)
    (hn : n ≠ 0)
    (herr : capturedStderr pre1 = capturedStderr pre2) :
    (executeClaudeCli o w1).result = (executeClaudeCli o w2).result ∧
    (executeClaudeCli o w1).result.metadata = none ∧
    (executeClaudeCli o w1).result.content =
      [{ type := "text",
         text := "Error executing Claude Code: Process exited with code " ++ toString n ++
           "\n\n" ++ capturedStderr pre1 }] := by
  have hcode : (some n ≠ some (0 : Int)) := by simpa using hn
  have key : ∀ (w : World) (pre post : List ProcEvent), w.spawnThrows = none →
      w.beforeDeadline = pre ++ ProcEvent.close (some n) :: post →
      (∀ e ∈ pre, e.resolves = false) →
      (executeClaudeCli o w).result =
        { content := [{ type := "text",
                        text := "Error executing Claude Code: " ++
                          ("Process exited with code " ++ toString n) ++ "\n\n" ++
                          capturedStderr pre }],
          isError := true, metadata := none } := by
    intro w pre post hspawn hev hpre
    obtain ⟨st0, h1, h2, h3, hres⟩ := result_of_spawned o w hreq hspawn
    rw [hres, hev]
    have hx := runEvents_close w pre post (some n) hpre st0 h3
    simp only [raceResult, hx, h1, h2, empty_append_str, if_pos hcode, codeStr]
    rw [formatResult_error _ _ _ ("Process exited with code " ++ toString n) rfl
      (append_ne_empty _ _ (by decide))]
  rw [key w1 pre1 post1 hspawn1 hev1 hpre1, key w2 pre2 post2 hspawn2 hev2 hpre2, herr]
  refine ⟨rfl, rfl, ?_⟩
  simp only [← String.append_assoc]
  rfl

/-- C16, an instance: exit code 2 and stderr "ERR", with stdout "OUT" in one
run and "other" in the other. -/
theorem C16_failure_carries_stderr_only_witness :
    (executeClaudeCli { prompt := some "hi" }
        { beforeDeadline := [.stdoutData "OUT", .stderrData "ERR", .close (some 2)] }).result =
      (executeClaudeCli { prompt := some "hi" }
        { beforeDeadline := [.stderrData "ERR", .stdoutData "other", .close (some 2)] }).result ∧
    (executeClaudeCli { prompt := some "hi" }
        { beforeDeadline := [.stdoutData "OUT", .stderrData "ERR", .close (some 2)] }).result.metadata
      = none ∧
    (executeClaudeCli { prompt := some "hi" }
        { beforeDeadline := [.stdoutData "OUT", .stderrData "ERR", .close (some 2)] }).result.content
      = [{ type := "text",
           text := "Error executing Claude Code: Process exited with code " ++ toString (2 : Int) ++
             "\n\n" ++ capturedStderr [.stdoutData "OUT", .stderrData "ERR"] }] :=
  C16_failure_carries_stderr_only { prompt := some "hi" }
    { beforeDeadline := [.stdoutData "OUT", .stderrData "ERR", .close (some 2)] }
    { beforeDeadline := [.stderrData "ERR", .stdoutData "other", .close (some 2)] }
    [.stdoutData "OUT", .stderrData "ERR"] [] [.stderrData "ERR", .stdoutData "other"] [] 2
    (Or.inl rfl) rfl rfl rfl rfl (by decide) (by decide) (by decide) (by decide)

/-! ## The log does not change the outcome -/

/-- Resolving `executePromise` does the same to the outcome whatever the file
system does. -/
theorem resolveExecute_sameOutcome (w1 w2 : World) (a b : ExecState) (r : RawResult)
    (h : a.sameOutcome b) : (resolveExecute w1 a r).sameOutcome (resolveExecute w2 b r) := by
  obtain ⟨h1, h2, h3, h4, h5, h6, h7⟩ := h
  unfold resolveExecute
  rw [← h3, ← h7]
  cases a.executeResult with
  | some r0 => exact ⟨h1, h2, h3, h4, h5, h6, h7⟩
  | none =>
      cases a.settled with
      | true => exact ⟨h1, h2, rfl, h4, h5, h6, rfl⟩
      | false => exact ⟨h1, h2, rfl, h4, h5, h6, rfl⟩

/-- A handler does the same to the outcome whatever the file system does. -/
theorem onEvent_sameOutcome (w1 w2 : World) (a b : ExecState) (e : ProcEvent)
    (h : a.sameOutcome b) : (onEvent w1 a e).sameOutcome (onEvent w2 b e) := by
  obtain ⟨h1, h2, h3, h4, h5, h6, h7⟩ := h
  cases e with
  | stdoutData chunk =>
      exact ⟨congrArg (fun s => s ++ chunk) h1, h2, h3, h4, h5, h6, h7⟩
  | stderrData chunk =>
      exact ⟨h1, congrArg (fun s => s ++ chunk) h2, h3, h4, h5, h6, h7⟩
  | exit => exact ⟨h1, h2, h3, rfl, h5, h6, h7⟩
  | close code =>
      simp only [onEvent, ← h1, ← h2]
      exact resolveExecute_sameOutcome w1 w2 _ _ _ ⟨rfl, rfl, h3, rfl, h5, h6, h7⟩
  | error err =>
      simp only [onEvent, ← h1, ← h2]
      exact resolveExecute_sameOutcome w1 w2 _ _ _ ⟨rfl, rfl, h3, rfl, h5, h6, h7⟩

/-- The handlers, run on the same events, do the same to the outcome whatever
the file system does. -/
theorem runEvents_sameOutcome (w1 w2 : World) (events : List ProcEvent) (a b : ExecState)
    (h : a.sameOutcome b) : (runEvents w1 a events).sameOutcome (runEvents w2 b events) := by
  induction events generalizing a b with
  | nil => exact h
  | cons e rest ih =>
      rw [runEvents_cons, runEvents_cons]
      exact ih _ _ (onEvent_sameOutcome w1 w2 a b e h)

/-- Sending a signal does the same to the outcome on states with the same
outcome. -/
theorem kill_sameOutcome (a b : ExecState) (signal : String) (h : a.sameOutcome b) :
    (kill a signal).sameOutcome (kill b signal) := by
  obtain ⟨h1, h2, h3, h4, h5, h6, h7⟩ := h
  unfold kill
  rw [← h4]
  by_cases hr : a.running = true
  · rw [if_pos hr, if_pos hr]
    exact ⟨h1, h2, h3, rfl, rfl, congrArg (fun s => s ++ [signal]) h6, h7⟩
  · rw [if_neg hr, if_neg hr]
    exact ⟨h1, h2, h3, h4, h5, h6, h7⟩

/-- The deadline callback does the same to the outcome whatever the file
system does. -/
theorem onDeadline_sameOutcome (timeout : Nat) (w1 w2 : World) (a b : ExecState)
    (h : a.sameOutcome b) :
    (onDeadline timeout w1 a).sameOutcome (onDeadline timeout w2 b) := by
  have hk := kill_sameOutcome
    { a with
      fs := tryAppend w1 a.fs ("Command execution timed out after " ++ toString timeout ++ "ms\n") }
    { b with
      fs := tryAppend w2 b.fs ("Command execution timed out after " ++ toString timeout ++ "ms\n") }
    "SIGTERM" h
  obtain ⟨k1, k2, k3, k4, k5, k6, k7⟩ := hk
  unfold onDeadline
  simp only
  rw [← k7]
  split
  · exact ⟨k1, k2, k3, k4, k5, k6, k7⟩
  · exact ⟨k1, k2, k3, k4, k5, k6, rfl⟩

/-- The timers do the same to the outcome whatever the file system does. -/
theorem runTimers_sameOutcome (timeout : Nat) (w1 w2 : World) (a b : ExecState)
    (hgrace : w1.duringGrace = w2.duringGrace) (h : a.sameOutcome b) :
    (runTimers timeout w1 a).sameOutcome (runTimers timeout w2 b) := by
  unfold runTimers
  rw [← h.2.2.1, hgrace]
  by_cases hres : a.executeResult.isSome = true
  · rw [if_pos hres, if_pos hres]; exact h
  · rw [if_neg hres, if_neg hres]
    have hg := runEvents_sameOutcome w1 w2 w2.duringGrace _ _
      (onDeadline_sameOutcome timeout w1 w2 a b h)
    unfold onGrace
    rw [← hg.2.2.2.2.1]
    split
    · exact kill_sameOutcome _ _ _ hg
    · exact hg

/-- C17: the result of `executeClaudeCli`, the `spawn` call and the signals
sent are the same whatever the file system does: for every request, every
sequence of process events, and any two ways the log writes (creating the
temp directory, writing and appending to the log file) succeed or fail. -/
theorem C17_logging_failures_do_not_change_outcome (o : Options) (w : World)
    (fsOk : Nat → Bool) (tempDirExists : Bool) :
    (executeClaudeCli o { w with fsOk := fsOk, tempDirExists := tempDirExists }).result =
      (executeClaudeCli o w).result ∧
    (executeClaudeCli o { w with fsOk := fsOk, tempDirExists := tempDirExists }).spawnCalls =
      (executeClaudeCli o w).spawnCalls ∧
    (executeClaudeCli o { w with fsOk := fsOk, tempDirExists := tempDirExists }).signals =
      (executeClaudeCli o w).signals := by
  generalize hw : ({ w with fsOk := fsOk, tempDirExists := tempDirExists } : World) = w2
  have e1 : userDirectory w2 = userDirectory w := by rw [← hw]; rfl
  have e2 : claudePath w2 = claudePath w := by rw [← hw]; rfl
  have e3 : w2.spawnThrows = w.spawnThrows := by rw [← hw]
  have e4 : w2.beforeDeadline = w.beforeDeadline := by rw [← hw]
  have e5 : w2.duringGrace = w.duringGrace := by rw [← hw]
  have e6 : w2.uuid = w.uuid := by rw [← hw]
  have hfmt : ∀ lp r, formatResult lp w2 r = formatResult lp w r := by
    intro lp r
    simp only [formatResult, e6]
  cases hb : buildCommand (userDirectory w) (claudePath w) o.prompt o.command
      (o.allowedTools.getD []) with
  | error e =>
      simp only [executeClaudeCli, e1, e2, hb]
      exact ⟨trivial, trivial, trivial⟩
  | ok cmd =>
      cases hs : w.spawnThrows with
      | some e =>
          simp only [executeClaudeCli, e1, e2, e3, hb, hs]
          exact ⟨trivial, trivial, trivial⟩
      | none =>
          simp only [executeClaudeCli, e1, e2, e3, e4, hb, hs, hfmt]
          have h1 := runEvents_sameOutcome w2 w w.beforeDeadline
            { fs := tryAppend w2 (writeLogHeader w2 (createTempDir w2 {}) (userDirectory w)
                (claudePath w) (o.allowedTools.getD [])) ("Command: " ++ cmd ++ "\n") }
            { fs := tryAppend w (writeLogHeader w (createTempDir w {}) (userDirectory w)
                (claudePath w) (o.allowedTools.getD [])) ("Command: " ++ cmd ++ "\n") }
            ⟨rfl, rfl, rfl, rfl, rfl, rfl, rfl⟩
          have h2 := runTimers_sameOutcome (o.timeout.getD 900000) w2 w _ _ e5 h1
          refine ⟨?_, ?_, h2.2.2.2.2.2.1⟩
          · simp only [raceResult, h1.2.2.1]
          · trivial

/-! ## The tool handlers -/

/-- Whenever the `try` block of the CodeReviewer handler throws, the handler
does not return: its promise is rejected with the `ReferenceError` of the
`catch` block. -/
theorem codeReviewer_rejects_of_throw (args : CodeReviewerArgs) (host : Host) (w : World)
    (e : JsError) (h : codeReviewerTool.tryBlock args host w = .error e) :
    codeReviewerTool.handler args host w =
      .error { name := "ReferenceError", message := "cleanedFilePaths is not defined" } := by
  simp only [codeReviewerTool.handler, h, codeReviewerTool.catchBlock]

/-- C18 (the code at a failing input): the CodeReviewer handler called
without `filePaths` and `implementationPlan` returns no result; its promise
is rejected with `ReferenceError: cleanedFilePaths is not defined`, whatever
the host and the world. -/
theorem C18_code_reviewer_handler_rejects (host : Host) (w : World) :
    codeReviewerTool.handler {} host w =
      .error { name := "ReferenceError", message := "cleanedFilePaths is not defined" } := by
  unfold codeReviewerTool.handler codeReviewerTool.tryBlock
  split
  · rename_i run hrun
    split at hrun
    · simp at hrun
    · simp [codeReviewerTool.parseFilePaths] at hrun
  · rfl

/-! ## The path helpers -/

/-- A text whose first character is not `c` does not start with `c`. -/
theorem not_startsWith_of_head (c : Char) (s : String) (h : s.toList.head? ≠ some c) :
    ¬ startsWithChar c s := by
  rintro ⟨rest, hs⟩
  apply h
  rw [hs]
  rfl

/-- C19: `formatClaudeCodePath` returns `''` for the empty path; for a
non-empty path `p`, with `q` the path `p` without one leading `/`, the result
starts with `@`, and is `q` if `q` starts with `@` and `@` followed by `q`
otherwise. -/
theorem C19_formatClaudeCodePath_spec (p : String) :
    (p = "" → formatClaudeCodePath p = "") ∧
    (p ≠ "" →
      startsWithChar '@' (formatClaudeCodePath p) ∧
      (startsWithChar '@' (withoutLeadingSlash p) →
        formatClaudeCodePath p = withoutLeadingSlash p) ∧
      (¬ startsWithChar '@' (withoutLeadingSlash p) →
        formatClaudeCodePath p = "@" ++ withoutLeadingSlash p)) := by
  constructor
  · intro h
    simp [formatClaudeCodePath, h]
  · intro hne
    have hq : (if p.toList.head? = some '/' then String.mk (p.toList.drop 1) else p) =
        withoutLeadingSlash p := by
      unfold withoutLeadingSlash
      cases hl : p.toList with
      | nil => simp
      | cons c rest =>
          by_cases hc : c = '/'
          · subst hc; simp
          · simp [hc]
    have hform : formatClaudeCodePath p =
        if (withoutLeadingSlash p).toList.head? = some '@' then withoutLeadingSlash p
        else "@" ++ withoutLeadingSlash p := by
      simp only [formatClaudeCodePath, if_neg hne, hq]
    have hiff : startsWithChar '@' (withoutLeadingSlash p) ↔
        (withoutLeadingSlash p).toList.head? = some '@' := by
      unfold startsWithChar
      constructor
      · rintro ⟨rest, h⟩
        rw [h]; rfl
      · intro h
        cases hl : (withoutLeadingSlash p).toList with
        | nil => rw [hl] at h; simp at h
        | cons c rest =>
            rw [hl] at h
            simp at h
            exact ⟨rest, by rw [h]⟩
    refine ⟨?_, ?_, ?_⟩
    · rw [hform]
      by_cases h : (withoutLeadingSlash p).toList.head? = some '@'
      · rw [if_pos h]; exact hiff.mpr h
      · rw [if_neg h]; exact ⟨(withoutLeadingSlash p).toList, by simp⟩
    · intro h
      rw [hform, if_pos (hiff.mp h)]
    · intro h
      rw [hform, if_neg (fun h2 => h (hiff.mpr h2))]

/-- C19, two instances: the empty path, and `/src/a.js`. -/
theorem C19_formatClaudeCodePath_spec_witness :
    formatClaudeCodePath "" = "" ∧
    formatClaudeCodePath "/src/a.js" = "@" ++ withoutLeadingSlash "/src/a.js" :=
  ⟨(C19_formatClaudeCodePath_spec "").1 rfl,
   ((C19_formatClaudeCodePath_spec "/src/a.js").2 (by decide)).2.2
     (not_startsWith_of_head _ _ (by decide))⟩

/-- A text that does not start with `c` has another first character, or
none. -/
theorem head_ne_of_not_startsWith (c : Char) (s : String) (h : ¬ startsWithChar c s) :
    s.toList.head? ≠ some c := by
  intro hh
  apply h
  cases hl : s.toList with
  | nil => rw [hl] at hh; simp at hh
  | cons d rest =>
      rw [hl] at hh
      simp at hh
      exact ⟨rest, by rw [hl, hh]⟩

/-- C20: for every non-empty path `p` that starts with neither `/` nor `@`,
`extractFilePath (formatClaudeCodePath p) = p`. -/
theorem C20_extract_after_format (p : String) (hne : p ≠ "")
    (hslash : ¬ startsWithChar '/' p) (hat : ¬ startsWithChar '@' p) :
    extractFilePath (formatClaudeCodePath p) = p := by
  have h1 := head_ne_of_not_startsWith '/' p hslash
  have h2 := head_ne_of_not_startsWith '@' p hat
  have hf : formatClaudeCodePath p = "@" ++ p := by
    simp only [formatClaudeCodePath, if_neg hne, if_neg h1, if_neg h2]
  rw [hf]
  have hne2 : "@" ++ p ≠ "" := append_ne_empty _ _ (by decide)
  have hl : ("@" ++ p).toList = '@' :: p.toList := by
    simp [String.toList]
  simp only [extractFilePath, if_neg hne2, hl]
  simp

/-- C20, an instance: the path `src/a.js`. -/
theorem C20_extract_after_format_witness :
    extractFilePath (formatClaudeCodePath "src/a.js") = "src/a.js" :=
  C20_extract_after_format "src/a.js" (by decide) (not_startsWith_of_head _ _ (by decide)) (not_startsWith_of_head _ _ (by decide))

/-! ## Paths in a text -/

/-- C21 (the code at a failing input): a path already written with `@` gets a
second `@`, so the output of `formatPathsInText` is changed by a second
application. -/
theorem C21_at_path_formatted_again :
    formatPathsInText "@src/a.js" = "@@src/a.js" ∧
    formatPathsInText "see src/a.js" = "see @src/a.js" ∧
    formatPathsInText (formatPathsInText "see src/a.js") = "see @@src/a.js" := by
  decide

/-- C22 (the code at a failing input): the path part of a URL is formatted,
which changes the URL. -/
theorem C22_url_is_changed :
    formatPathsInText "http://example.com/index.html" = "http://example.@com/index.html" := by
  decide

/-! ## The sequential thinking server -/

/-- A number is truthy exactly when, as a value, it is a non-zero number. -/
theorem isTruthy_eq_isNonZeroNumber (n : JsNum) : n.isTruthy = isNonZeroNumber (.num n) := by
  cases n with
  | nan => rfl
  | posInf => rfl
  | negInf => rfl
  | fin q =>
      by_cases hq : q = 0
      · subst hq; rfl
      · have h1 : (JsNum.fin q != JsNum.nan) = true := by simp
        have h2 : (JsNum.fin q != JsNum.fin 0) = true := by simp [hq]
        simp only [JsNum.isTruthy, isNonZeroNumber, h1, h2, Bool.and_self]
        simpa using hq

/-- A number, as a value, is a non-zero number exactly when it is truthy. -/
theorem isNonZeroNumber_num (n : JsNum) : isNonZeroNumber (.num n) = n.isTruthy :=
  (isTruthy_eq_isNonZeroNumber n).symm

/-- A value that is not a number is not a non-zero number. -/
theorem isNonZeroNumber_of_not_num (v : JsVal) (h : ∀ n, v ≠ .num n) :
    isNonZeroNumber v = false := by
  cases v <;> first | rfl | exact absurd rfl (h _)

/-- When a check fails, `validateThoughtData` throws the error of the first
check that fails. -/
theorem validate_error_of_firstFailure (input : ThoughtInput) (msg : String)
    (h : firstFailure input = some msg) :
    validateThoughtData input = .error (newError msg) := by
  unfold firstFailure at h
  unfold validateThoughtData
  cases ht : input.thought with
  | str thought =>
      by_cases hte : thought = ""
      · simp [ht, isNonEmptyString, hte] at h
        subst h
        simp [hte]
      · cases hn : input.thought_number with
        | num tn =>
            cases htn : tn.isTruthy with
            | false =>
                simp [ht, hn, isNonEmptyString, hte, isNonZeroNumber_num, htn] at h
                subst h
                simp [hte, htn]
            | true =>
                cases hto : input.total_thoughts with
                | num tt =>
                    cases htt : tt.isTruthy with
                    | false =>
                        simp [ht, hn, hto, isNonEmptyString, hte, isNonZeroNumber_num,
                          htn, htt] at h
                        subst h
                        simp [hte, htn, htt]
                    | true =>
                        cases hb : input.next_thought_needed <;>
                          simp [ht, hn, hto, hb, isNonEmptyString, hte,
                            isNonZeroNumber_num, htn, htt, isBoolean] at h <;>
                          (subst h; simp [hte, htn, htt])
                | _ =>
                    simp [ht, hn, hto, isNonEmptyString, hte, isNonZeroNumber_num, htn] at h
                    simp [isNonZeroNumber] at h
                    subst h
                    simp [hte, htn]
        | _ =>
            simp [ht, hn, isNonEmptyString, hte, isNonZeroNumber] at h
            subst h
            simp [hte]
  | _ =>
      simp [ht, isNonEmptyString] at h
      subst h
      rfl

/-- A thought that passes every check is returned by `validateThoughtData`
with its properties unchanged. -/
theorem validate_ok_of_valid (input : ThoughtInput) (h : firstFailure input = none) :
    ∃ v, validateThoughtData input = .ok v ∧
      input.thought = .str v.thought ∧
      input.thought_number = .num v.thought_number ∧
      input.total_thoughts = .num v.total_thoughts ∧
      input.next_thought_needed = .bool v.next_thought_needed ∧
      v.branch_from_thought = input.branch_from_thought ∧
      v.branch_id = input.branch_id ∧
      v.current_step = input.current_step ∧
      v.previous_steps = input.previous_steps ∧
      v.remaining_steps = input.remaining_steps := by
  unfold firstFailure at h
  unfold validateThoughtData
  cases ht : input.thought with
  | str thought =>
      by_cases hte : thought = ""
      · simp [ht, isNonEmptyString, hte] at h
      · cases hn : input.thought_number with
        | num tn =>
            cases htn : tn.isTruthy with
            | false =>
                simp [ht, hn, isNonEmptyString, hte, isNonZeroNumber_num, htn] at h
            | true =>
                cases hto : input.total_thoughts with
                | num tt =>
                    cases htt : tt.isTruthy with
                    | false =>
                        simp [ht, hn, hto, isNonEmptyString, hte, isNonZeroNumber_num,
                          htn, htt] at h
                    | true =>
                        cases hb : input.next_thought_needed with
                        | bool b => simp [hte, htn, htt]
                        | _ =>
                            simp [ht, hn, hto, hb, isNonEmptyString, hte,
                              isNonZeroNumber_num, htn, htt, isBoolean] at h
                | _ =>
                    simp [ht, hn, hto, isNonEmptyString, hte, isNonZeroNumber_num, htn] at h
                    simp [isNonZeroNumber] at h
        | _ => simp [ht, hn, isNonEmptyString, hte, isNonZeroNumber] at h
  | _ => simp [ht, isNonEmptyString] at h

/-- No number is greater than itself. -/
theorem JsNum.gt_irrefl (a : JsNum) : a.gt a = false := by
  cases a <;> simp [JsNum.gt]

/-- Of two numbers at most one is greater than the other. -/
theorem JsNum.gt_asymm (a b : JsNum) (h : a.gt b = true) : b.gt a = false := by
  cases a <;> cases b <;> simp_all [JsNum.gt]
  exact le_of_lt h

/-- The array of an own property after `push`. -/
theorem lookup_pushToBranch (id : String) (t : ThoughtData)
    (branches : List (String × List ThoughtData)) (thoughts : List ThoughtData)
    (h : branches.lookup id = some thoughts) :
    (pushToBranch id t branches).lookup id = some (thoughts ++ [t]) := by
  induction branches with
  | nil => simp at h
  | cons p rest ih =>
      obtain ⟨key, ts⟩ := p
      by_cases hk : key = id
      · subst hk
        simp only [List.lookup_cons, beq_self_eq_true] at h
        simp only [pushToBranch, if_true, List.lookup_cons, beq_self_eq_true]
        cases h
        rfl
      · have hk2 : (id == key) = false := by simpa using fun h => hk h.symm
        simp only [List.lookup_cons, hk2] at h
        simp only [pushToBranch, if_neg hk, List.lookup_cons, hk2]
        exact ih h

/-- A new property at the end of an object that has none of that name. -/
theorem lookup_append_new (id : String) (t : ThoughtData)
    (branches : List (String × List ThoughtData)) (h : branches.lookup id = none) :
    (branches ++ [(id, [t])]).lookup id = some [t] := by
  induction branches with
  | nil => simp [List.lookup]
  | cons p rest ih =>
      obtain ⟨key, ts⟩ := p
      by_cases hk : (id == key) = true
      · simp [List.lookup_cons, hk] at h
      · have hk2 : (id == key) = false := by simpa using hk
        simp only [List.lookup_cons, hk2] at h
        simp only [List.cons_append, List.lookup_cons, hk2]
        exact ih h

/-- The steps before the history is extended keep the numbers but
`total_thoughts`, and the branch properties. -/
theorem storeStep_adjustTotal (v : ThoughtData) :
    (storeStep (adjustTotal v)).thought_number = v.thought_number ∧
    (storeStep (adjustTotal v)).total_thoughts =
      (if v.thought_number.gt v.total_thoughts then v.thought_number else v.total_thoughts) ∧
    (storeStep (adjustTotal v)).branch_from_thought = v.branch_from_thought ∧
    (storeStep (adjustTotal v)).branch_id = v.branch_id := by
  unfold storeStep adjustTotal
  by_cases hg : v.thought_number.gt v.total_thoughts = true
  · simp only [hg, if_true]
    cases v.current_step <;> exact ⟨rfl, rfl, rfl, rfl⟩
  · simp only [hg, Bool.false_eq_true, if_false]
    cases v.current_step <;> exact ⟨rfl, rfl, rfl, rfl⟩

/-- What the branch statement does when it does not throw. -/
theorem addToBranch_ok (server : SequentialThinkingServer) (v : ThoughtData)
    (set : Bool)
    (hset : set = ((match v.branch_from_thought with
      | some n => n.isTruthy
      | none => false) && truthy v.branch_id))
    (h : (set && lookupBranch server.branches (v.branch_id.getD "") = BranchLookup.inherited)
      = false) :
    ∃ server2, addToBranch server v = .ok server2 ∧
      server2.thought_history = server.thought_history ∧
      (set = true → branchThoughts server2 (v.branch_id.getD "") =
        branchThoughts server (v.branch_id.getD "") ++ [v]) ∧
      (set = false → server2.branches = server.branches) := by
  unfold addToBranch
  simp only [← hset]
  cases set with
  | false => exact ⟨server, by simp, rfl, by simp, fun _ => rfl⟩
  | true =>
      simp only [Bool.true_and, decide_eq_false_iff_not] at h
      simp only [if_true]
      cases hl : lookupBranch server.branches (v.branch_id.getD "") with
      | inherited => exact absurd hl h
      | own thoughts =>
          refine ⟨_, rfl, rfl, fun _ => ?_, by simp⟩
          have hlook : server.branches.lookup (v.branch_id.getD "") = some thoughts := by
            unfold lookupBranch at hl
            cases hx : server.branches.lookup (v.branch_id.getD "") with
            | none => rw [hx] at hl; simp only at hl; split at hl <;> simp at hl
            | some ts => rw [hx] at hl; simp only [BranchLookup.own.injEq] at hl; rw [hl]
          simp only [branchThoughts, lookup_pushToBranch _ _ _ _ hlook, hlook, Option.getD_some]
      | absent =>
          refine ⟨_, rfl, rfl, fun _ => ?_, by simp⟩
          have hlook : server.branches.lookup (v.branch_id.getD "") = none := by
            unfold lookupBranch at hl
            cases hx : server.branches.lookup (v.branch_id.getD "") with
            | none => rfl
            | some ts => rw [hx] at hl; simp at hl
          simp only [branchThoughts, lookup_append_new _ _ _ hlook, hlook, Option.getD_some,
            Option.getD_none, List.nil_append]

/-- What `processThought` does with a thought that passes every check and
does not ask for a branch named like an inherited property: it succeeds; the
response repeats `thought_number` and reports as `total_thoughts` the greater
of the two numbers; one entry is appended to `thought_history` and the
response reports the new length; the entry is appended to the branch
`branch_id` when both `branch_from_thought` and `branch_id` are set, and the
branches stay as they are otherwise. -/
theorem processThought_valid (server : SequentialThinkingServer) (input : ThoughtInput)
    (hvalid : firstFailure input = none) (hbranch : branchIsInherited server input = false) :
    ∃ (tn tt : JsNum) (entry : ThoughtData) (payload : ThoughtPayload),
      input.thought_number = .num tn ∧ input.total_thoughts = .num tt ∧
      (processThought server input).2 = .ok payload ∧
      payload.thought_number = tn ∧
      (payload.total_thoughts = tn ∨ payload.total_thoughts = tt) ∧
      tn.gt payload.total_thoughts = false ∧ tt.gt payload.total_thoughts = false ∧
      (processThought server input).1.thought_history = server.thought_history ++ [entry] ∧
      payload.thought_history_length = server.thought_history.length + 1 ∧
      (branchIsSet input = true →
        branchThoughts (processThought server input).1 (input.branch_id.getD "") =
          branchThoughts server (input.branch_id.getD "") ++ [entry]) ∧
      (branchIsSet input = false →
        (processThought server input).1.branches = server.branches) := by
  obtain ⟨v, hv, _, h2, h3, _, h5, h6, _, _, _⟩ := validate_ok_of_valid input hvalid
  have hmax : ∀ total, total = (if v.thought_number.gt v.total_thoughts then v.thought_number
      else v.total_thoughts) →
      (total = v.thought_number ∨ total = v.total_thoughts) ∧
      v.thought_number.gt total = false ∧ v.total_thoughts.gt total = false := by
    intro total ht
    by_cases hg : v.thought_number.gt v.total_thoughts = true
    · rw [if_pos hg] at ht
      subst ht
      exact ⟨Or.inl rfl, JsNum.gt_irrefl _, JsNum.gt_asymm _ _ hg⟩
    · rw [if_neg hg] at ht
      subst ht
      exact ⟨Or.inr rfl, by simpa using hg, JsNum.gt_irrefl _⟩
  obtain ⟨k1, k2, k3, k4⟩ := storeStep_adjustTotal v
  have hsetv : branchIsSet input = ((match (storeStep (adjustTotal v)).branch_from_thought with
      | some n => n.isTruthy
      | none => false) && truthy (storeStep (adjustTotal v)).branch_id) := by
    rw [k3, k4, h5, h6]
    rfl
  have hid : (storeStep (adjustTotal v)).branch_id.getD "" = input.branch_id.getD "" := by
    rw [k4, h6]
  have hno : (branchIsSet input && lookupBranch
      ({ server with thought_history := server.thought_history ++ [storeStep (adjustTotal v)] }
        : SequentialThinkingServer).branches
      ((storeStep (adjustTotal v)).branch_id.getD "") = BranchLookup.inherited) = false := by
    rw [hid]
    exact hbranch
  obtain ⟨server2, hadd, s1, s2, s3⟩ := addToBranch_ok
    { server with thought_history := server.thought_history ++ [storeStep (adjustTotal v)] }
    (storeStep (adjustTotal v)) (branchIsSet input) hsetv hno
  obtain ⟨m1, m2, m3⟩ := hmax _ k2
  refine ⟨v.thought_number, v.total_thoughts, storeStep (adjustTotal v),
    thoughtPayload server2 (storeStep (adjustTotal v)), h2, h3, ?_, k1, m1, m2, m3, ?_, ?_, ?_, ?_⟩
  · simp only [processThought, hv, hadd]
  · simp only [processThought, hv, hadd, s1]
  · simp only [thoughtPayload, s1, List.length_append, List.length_singleton]
  · intro hs
    simp only [processThought, hv, hadd]
    rw [← hid]
    exact s2 hs
  · intro hs
    simp only [processThought, hv, hadd]
    exact s3 hs

/-- A thought that fails a check is answered with the message of the first
check that fails, and the state stays as it is. -/
theorem processThought_invalid (server : SequentialThinkingServer) (input : ThoughtInput)
    (msg : String) (h : firstFailure input = some msg) :
    processThought server input = (server, .failed msg) := by
  simp only [processThought, validate_error_of_firstFailure input msg h, newError]

/-- For a thought that does not ask for a branch named like an inherited
property, the result is `failed` exactly when a check fails. -/
theorem processThought_failed_iff (server : SequentialThinkingServer) (input : ThoughtInput)
    (hbranch : branchIsInherited server input = false) :
    (∃ msg, (processThought server input).2 = .failed msg) ↔ firstFailure input ≠ none := by
  cases hf : firstFailure input with
  | some msg =>
      rw [processThought_invalid server input msg hf]
      simp
  | none =>
      obtain ⟨_, _, _, payload, _, _, hp, _⟩ := processThought_valid server input hf hbranch
      rw [hp]
      simp

/-- C24 (the code at a failing input): the thought number 1 of 3 with
`branch_from_thought: 1` and `branch_id: "constructor"` passes every check,
yet the response is the `failed` result and reports no `total_thoughts`. -/
theorem C24_valid_thought_reports_no_total :
    firstFailure
        { thought := .str "Consider the alternative", thought_number := .num (.fin 1),
          total_thoughts := .num (.fin 3), next_thought_needed := .bool true,
          branch_from_thought := some (.fin 1), branch_id := some "constructor" } = none ∧
    (processThought {}
        { thought := .str "Consider the alternative", thought_number := .num (.fin 1),
          total_thoughts := .num (.fin 3), next_thought_needed := .bool true,
          branch_from_thought := some (.fin 1), branch_id := some "constructor" }).2 =
      .failed "this.branches[validatedInput.branch_id].push is not a function" := by
  decide

/-- C25 (the code at a failing input): a thought whose `thought` is a
non-empty string, whose `thought_number` and `total_thoughts` are non-zero
numbers and whose `next_thought_needed` is a boolean is answered with an error
result when it asks for the branch `toString`; the message is that of none of
the four checks. -/
theorem C25_error_result_for_valid_thought :
    isNonEmptyString (.str "Consider the alternative") = true ∧
    isNonZeroNumber (.num (.fin 2)) = true ∧
    isNonZeroNumber (.num (.fin 5)) = true ∧
    isBoolean (.bool false) = true ∧
    (processThought {}
        { thought := .str "Consider the alternative", thought_number := .num (.fin 2),
          total_thoughts := .num (.fin 5), next_thought_needed := .bool false,
          branch_from_thought := some (.fin 1), branch_id := some "toString" }).2 =
      .failed "this.branches[validatedInput.branch_id].push is not a function" := by
  decide

/-- C26 (the code at a failing input): for a valid thought with
`branch_from_thought: 1` and `branch_id: "__proto__"`, the thought is appended
to `thought_history`, no branch gets it, and the response is the `failed`
result, which reports no `thought_history_length`. -/
theorem C26_branch_not_added :
    branchIsSet
        { thought := .str "Consider the alternative", thought_number := .num (.fin 2),
          total_thoughts := .num (.fin 5), next_thought_needed := .bool true,
          branch_from_thought := some (.fin 1), branch_id := some "__proto__" } = true ∧
    (processThought {}
        { thought := .str "Consider the alternative", thought_number := .num (.fin 2),
          total_thoughts := .num (.fin 5), next_thought_needed := .bool true,
          branch_from_thought := some (.fin 1), branch_id := some "__proto__" }) =
      ({ thought_history :=
            [{ thought := "Consider the alternative", thought_number := .fin 2,
               total_thoughts := .fin 5, next_thought_needed := true,
               branch_from_thought := some (.fin 1), branch_id := some "__proto__" }],
         branches := [] },
       .failed "this.branches[validatedInput.branch_id].push is not a function") := by
  decide

/-! ## Replacing a placeholder -/

/-- Texts that clash keep clashing when the second is extended. -/
theorem clashes_append (pat t x : List Char) (h : clashes pat t = true) :
    clashes pat (t ++ x) = true := by
  induction pat generalizing t with
  | nil => simp [clashes] at h
  | cons p ps ih =>
      cases t with
      | nil => simp [clashes] at h
      | cons c cs =>
          simp only [clashes, List.cons_append, Bool.or_eq_true] at h ⊢
          rcases h with h | h
          · exact Or.inl h
          · exact Or.inr (ih cs h)

/-- A text that clashes with another is not at its start. -/
theorem clashes_not_isPrefixOf (pat t : List Char) (h : clashes pat t = true) :
    pat.isPrefixOf t = false := by
  induction pat generalizing t with
  | nil => simp [clashes] at h
  | cons p ps ih =>
      cases t with
      | nil => rfl
      | cons c cs =>
          simp only [clashes, Bool.or_eq_true, bne_iff_ne, ne_eq] at h
          simp only [List.isPrefixOf, Bool.and_eq_false_imp, beq_iff_eq]
          intro hpc
          rcases h with h | h
          · exact absurd hpc h
          · exact ih cs h

/-- A pattern that starts nowhere in two texts starts nowhere in the two put
together. -/
theorem startsNowhere_append (pat a b : List Char) (ha : startsNowhere pat a = true)
    (hb : startsNowhere pat b = true) : startsNowhere pat (a ++ b) = true := by
  induction a with
  | nil => simpa using hb
  | cons c cs ih =>
      simp only [startsNowhere, Bool.and_eq_true] at ha
      simp only [List.cons_append, startsNowhere, Bool.and_eq_true]
      exact ⟨clashes_append pat (c :: cs) b ha.1, ih ha.2⟩

/-- A pattern starts nowhere in a text that does not have its first
character. -/
theorem startsNowhere_of_first (d : Char) (ps seg : List Char) (h : ∀ c ∈ seg, c ≠ d) :
    startsNowhere (d :: ps) seg = true := by
  induction seg with
  | nil => rfl
  | cons c cs ih =>
      simp only [startsNowhere, clashes, Bool.and_eq_true, Bool.or_eq_true, bne_iff_ne, ne_eq]
      exact ⟨Or.inl (fun hdc => h c (List.mem_cons_self c cs) hdc.symm),
        ih (fun x hx => h x (List.mem_cons_of_mem c hx))⟩

/-- The first occurrence of a pattern is found after a text in which it
starts nowhere. -/
theorem splitAtFirst_found (pat seg rest : List Char) (hpat : pat ≠ [])
    (h : startsNowhere pat seg = true) :
    splitAtFirst pat (seg ++ (pat ++ rest)) = some (seg, rest) := by
  induction seg with
  | nil =>
      cases pat with
      | nil => exact absurd rfl hpat
      | cons p ps =>
          have hp : (p :: ps).isPrefixOf (p :: (ps ++ rest)) = true := by
            rw [List.isPrefixOf_iff_prefix]
            exact List.prefix_append (p :: ps) rest
          simp only [List.nil_append]
          show splitAtFirst (p :: ps) (p :: (ps ++ rest)) = _
          unfold splitAtFirst
          rw [if_pos hp]
          simp
  | cons c cs ih =>
      simp only [startsNowhere, Bool.and_eq_true] at h
      have hno : pat.isPrefixOf (c :: (cs ++ (pat ++ rest))) = false :=
        clashes_not_isPrefixOf _ _ (clashes_append pat (c :: cs) (pat ++ rest) h.1)
      show splitAtFirst pat (c :: (cs ++ (pat ++ rest))) = _
      unfold splitAtFirst
      rw [hno, ih h.2]
      simp

/-- The call `replace` on a text whose first occurrence of the pattern is
known. -/
theorem jsReplace_found (s pattern replacement : String) (seg rest : List Char)
    (hs : s.toList = seg ++ (pattern.toList ++ rest)) (hpat : pattern.toList ≠ [])
    (h : startsNowhere pattern.toList seg = true) :
    jsReplace s pattern replacement =
      String.mk (seg ++ getSubstitution pattern.toList seg rest replacement.toList ++ rest) := by
  unfold jsReplace
  rw [hs, splitAtFirst_found _ _ _ hpat h]

/-- A replacement text without a dollar sign stands for itself. -/
theorem getSubstitution_plain (matched before after : List Char) :
    ∀ r : List Char, (∀ c ∈ r, c ≠ '$') → getSubstitution matched before after r = r
  | [], _ => rfl
  | [_], _ => rfl
  | c :: d :: rest, h => by
      have hc : c ≠ '$' := h c (List.mem_cons_self _ _)
      have ih := getSubstitution_plain matched before after (d :: rest)
        (fun x hx => h x (List.mem_cons_of_mem c hx))
      rw [getSubstitution, if_neg hc, ih]

/-- Three calls of `replace` in a row, on a text cut at the first occurrence
of each pattern. -/
theorem jsReplace_three (s p1 p2 p3 v1 v2 v3 : String) (i m1 m2 c : List Char)
    (hs : s.toList = i ++ (p1.toList ++ (m1 ++ (p2.toList ++ (m2 ++ (p3.toList ++ c))))))
    (h1 : p1.toList ≠ []) (h2 : p2.toList ≠ []) (h3 : p3.toList ≠ [])
    (sub1 sub2 sub3 : List Char)
    (e1 : getSubstitution p1.toList i (m1 ++ (p2.toList ++ (m2 ++ (p3.toList ++ c)))) v1.toList
      = sub1)
    (e2 : getSubstitution p2.toList (i ++ sub1 ++ m1) (m2 ++ (p3.toList ++ c)) v2.toList = sub2)
    (e3 : getSubstitution p3.toList (i ++ sub1 ++ m1 ++ sub2 ++ m2) c v3.toList = sub3)
    (n1 : startsNowhere p1.toList i = true)
    (n2 : startsNowhere p2.toList (i ++ sub1 ++ m1) = true)
    (n3 : startsNowhere p3.toList (i ++ sub1 ++ m1 ++ sub2 ++ m2) = true) :
    jsReplace (jsReplace (jsReplace s p1 v1) p2 v2) p3 v3 =
      String.mk (i ++ sub1 ++ m1 ++ sub2 ++ m2 ++ sub3 ++ c) := by
  rw [jsReplace_found s p1 v1 i _ hs h1 n1, e1]
  rw [jsReplace_found _ p2 v2 (i ++ sub1 ++ m1) (m2 ++ (p3.toList ++ c))
    (by simp [List.append_assoc]) h2 n2, e2]
  rw [jsReplace_found _ p3 v3 (i ++ sub1 ++ m1 ++ sub2 ++ m2) c
    (by simp [List.append_assoc]) h3 n3, e3]

/-- Plain texts put together are plain. -/
theorem isPlainText_append (a b : String) (ha : isPlainText a = true)
    (hb : isPlainText b = true) : isPlainText (a ++ b) = true := by
  unfold isPlainText at *
  rw [String.toList, String.data_append, List.all_append, Bool.and_eq_true]
  exact ⟨ha, hb⟩

/-- In a plain text no pattern that begins with an opening brace starts. -/
theorem startsNowhere_of_plain (s : String) (ps : List Char) (h : isPlainText s = true) :
    startsNowhere (Char.ofNat 123 :: ps) s.toList = true := by
  apply startsNowhere_of_first
  intro c hc hcb
  unfold isPlainText at h
  rw [List.all_eq_true] at h
  have := h c hc
  simp [hcb] at this

/-- A plain text, as a replacement, stands for itself. -/
theorem getSubstitution_of_plain (matched before after : List Char) (s : String)
    (h : isPlainText s = true) : getSubstitution matched before after s.toList = s.toList := by
  apply getSubstitution_plain
  intro c hc hcd
  unfold isPlainText at h
  rw [List.all_eq_true] at h
  have := h c hc
  simp [hcd] at this

/-- The text of the template before the task has no brace and no dollar
sign. -/
theorem editorPromptIntro_plain : isPlainText editorPromptIntro = true := by
  unfold editorPromptIntro
  repeat' (first | apply isPlainText_append | decide)

/-- The text of the template after the code context has no brace and no
dollar sign. -/
theorem editorPromptClosing_plain : isPlainText editorPromptClosing = true := by
  unfold editorPromptClosing
  repeat' (first | apply isPlainText_append | decide)

/-- The template, cut at its placeholders. -/
theorem CODE_EDITOR_PROMPT_toList :
    CODE_EDITOR_PROMPT.toList =
      editorPromptIntro.toList ++ ("\x7b\x7bTASK\x7d\x7d".toList ++
        ("\n\nFILE PATH TO EDIT:\n".toList ++ ("\x7b\x7bFILE_PATH\x7d\x7d".toList ++
          ("\n\n".toList ++ ("\x7b\x7bCODE_CONTEXT\x7d\x7d".toList ++
            editorPromptClosing.toList))))) := by
  unfold CODE_EDITOR_PROMPT
  simp only [String.toList, String.data_append, List.append_assoc]

/-- The prompt of the code editor when the three texts put into the template
have neither a brace nor a dollar sign: the template with each placeholder
replaced by its text. -/
theorem formattedPrompt_of_plain (task filePath codeContext : String)
    (h1 : isPlainText task = true) (h2 : isPlainText filePath = true)
    (h3 : isPlainText (codeEditorTool.contextSection codeContext) = true) :
    codeEditorTool.formattedPrompt task filePath codeContext =
      verbatimPrompt task filePath (codeEditorTool.contextSection codeContext) := by
  unfold codeEditorTool.formattedPrompt
  rw [jsReplace_three CODE_EDITOR_PROMPT _ _ _ task filePath
    (codeEditorTool.contextSection codeContext) _ _ _ _ CODE_EDITOR_PROMPT_toList
    (by decide) (by decide) (by decide) task.toList filePath.toList
    (codeEditorTool.contextSection codeContext).toList
    (getSubstitution_of_plain _ _ _ _ h1) (getSubstitution_of_plain _ _ _ _ h2)
    (getSubstitution_of_plain _ _ _ _ h3)
    (startsNowhere_of_plain _ _ editorPromptIntro_plain)
    (startsNowhere_append _ _ _
      (startsNowhere_append _ _ _ (startsNowhere_of_plain _ _ editorPromptIntro_plain)
        (startsNowhere_of_plain _ _ h1))
      (by decide))
    (startsNowhere_append _ _ _
      (startsNowhere_append _ _ _
        (startsNowhere_append _ _ _
          (startsNowhere_append _ _ _ (startsNowhere_of_plain _ _ editorPromptIntro_plain)
            (startsNowhere_of_plain _ _ h1))
          (by decide))
        (startsNowhere_of_plain _ _ h2))
      (by decide))]
  unfold verbatimPrompt
  apply String.ext
  simp only [String.data_append, String.toList, List.append_assoc]

/-- The prompt of the code editor for the task "Use $& here", the file path
"@src/a.js" and no code context. -/
theorem formattedPrompt_dollar_ampersand :
    codeEditorTool.formattedPrompt "Use $& here" "@src/a.js" "" =
      verbatimPrompt "Use \x7b\x7bTASK\x7d\x7d here" "@src/a.js" "" := by
  unfold codeEditorTool.formattedPrompt
  rw [jsReplace_three CODE_EDITOR_PROMPT _ _ _ "Use $& here" "@src/a.js"
    (codeEditorTool.contextSection "") _ _ _ _ CODE_EDITOR_PROMPT_toList
    (by decide) (by decide) (by decide) "Use \x7b\x7bTASK\x7d\x7d here".toList "@src/a.js".toList
    "".toList rfl rfl rfl
    (startsNowhere_of_plain _ _ editorPromptIntro_plain)
    (startsNowhere_append _ _ _
      (startsNowhere_append _ _ _ (startsNowhere_of_plain _ _ editorPromptIntro_plain)
        (by decide))
      (by decide))
    (startsNowhere_append _ _ _
      (startsNowhere_append _ _ _
        (startsNowhere_append _ _ _
          (startsNowhere_append _ _ _ (startsNowhere_of_plain _ _ editorPromptIntro_plain)
            (by decide))
          (by decide))
        (by decide))
      (by decide))]
  unfold verbatimPrompt
  apply String.ext
  simp only [String.data_append, String.toList, List.append_assoc]

/-- The template filled in with two different tasks gives two different
texts. -/
theorem verbatimPrompt_task_injective (t1 t2 filePath codeContext : String)
    (h : verbatimPrompt t1 filePath codeContext = verbatimPrompt t2 filePath codeContext) :
    t1 = t2 := by
  unfold verbatimPrompt at h
  have hd := congrArg String.data h
  simp only [String.data_append, List.append_assoc] at hd
  have h1 := List.append_cancel_left hd
  have h2 := List.append_cancel_right h1
  exact String.ext h2

/-! ## The code editor -/

/-- The call `replace` keeps the first character of a text that does not
begin like the pattern. -/
theorem jsReplace_head (s pattern replacement : String) (c d : Char)
    (hs : s.toList.head? = some c) (hp : pattern.toList.head? = some d) (hcd : c ≠ d) :
    (jsReplace s pattern replacement).toList.head? = some c := by
  unfold jsReplace
  cases hl : s.toList with
  | nil => rw [hl] at hs; simp at hs
  | cons x rest =>
      rw [hl] at hs
      have hx : x = c := by simpa using hs
      subst hx
      cases hpl : pattern.toList with
      | nil => rw [hpl] at hp; simp at hp
      | cons y ps =>
          rw [hpl] at hp
          have hy : y = d := by simpa using hp
          subst hy
          have hno : (y :: ps).isPrefixOf (x :: rest) = false := by
            simp [List.isPrefixOf, Ne.symm hcd]
          unfold splitAtFirst
          rw [hno]
          cases splitAtFirst (y :: ps) rest with
          | none =>
              show s.toList.head? = some x
              rw [hl]
              rfl
          | some ba => rfl

/-- The prompt of the edit run begins like the template. -/
theorem formattedPrompt_head (task filePath codeContext : String) :
    (codeEditorTool.formattedPrompt task filePath codeContext).toList.head? = some 'Y' := by
  unfold codeEditorTool.formattedPrompt
  apply jsReplace_head _ _ _ _ (Char.ofNat 123) _ (by decide) (by decide)
  apply jsReplace_head _ _ _ _ (Char.ofNat 123) _ (by decide) (by decide)
  apply jsReplace_head _ _ _ _ (Char.ofNat 123) _ (by decide) (by decide)
  rw [CODE_EDITOR_PROMPT_toList]
  unfold editorPromptIntro
  simp only [String.toList, String.data_append, List.append_assoc]
  rfl

/-- The edit run is always given a prompt. -/
theorem editOptions_prompt (args : CodeEditorArgs) :
    truthy (codeEditorTool.editOptions args).prompt = true := by
  have h := formattedPrompt_head (args.task.getD "")
    (formatClaudeCodePath (args.filePath.getD "")) (codeEditorTool.contextOf args)
  show truthy (some (codeEditorTool.formattedPrompt (args.task.getD "")
    (formatClaudeCodePath (args.filePath.getD "")) (codeEditorTool.contextOf args))) = true
  simp only [truthy, bne_iff_ne, ne_eq]
  intro he
  rw [he] at h
  simp at h

/-- The result of the edit run when the process writes nothing but white
space on stdout and exits with code 0. -/
theorem edit_noContent (args : CodeEditorArgs) (w : World) (pre post : List ProcEvent)
    (hspawn : w.spawnThrows = none)
    (hev : w.beforeDeadline = pre ++ ProcEvent.close (some 0) :: post)
    (hpre : ∀ e ∈ pre, e.resolves = false)
    (hblank : jsTrim (capturedStdout pre) = "") :
    (executeClaudeCli (codeEditorTool.editOptions args) w).result =
      { content := [{ type := "text", text := "(no content)\n" }],
        isError := false,
        metadata := some { exitCode := 0, sessionId := w.uuid } } := by
  obtain ⟨st0, h1, h2, h3, hres⟩ := result_of_spawned (codeEditorTool.editOptions args) w
    (Or.inl (editOptions_prompt args)) hspawn
  rw [hres, hev]
  have hx := runEvents_close w pre post (some 0) hpre st0 h3
  simp only [raceResult, hx, h1, h2, empty_append_str]
  simp [formatResult, truthy, hblank, codeEditorTool.editOptions]

/-- What is left of a text that ends with a character to keep, after the
characters to drop are dropped at its start, is not empty. -/
theorem dropWhile_append_keep (p : Char → Bool) (c : Char) (hc : p c = false) :
    ∀ l : List Char, (l ++ [c]).dropWhile p ≠ []
  | [] => by simp [List.dropWhile, hc]
  | x :: rest => by
      by_cases hx : p x = true
      · simp only [List.cons_append, List.dropWhile, hx]
        exact dropWhile_append_keep p c hc rest
      · simp [List.dropWhile, hx]

/-- A text that begins with the letter E is not blank. -/
theorem jsTrim_of_E (rest : List Char) : jsTrim (String.mk ('E' :: rest)) ≠ "" := by
  unfold jsTrim
  have h1 : List.dropWhile jsIsWhiteSpace ('E' :: rest) = 'E' :: rest := by
    rw [List.dropWhile_cons_of_neg (by decide)]
  intro h
  have hd := congrArg String.data h
  simp only [String.toList, h1, List.reverse_cons] at hd
  have h2 : (List.dropWhile jsIsWhiteSpace (rest.reverse ++ ['E'])).reverse = [] := hd
  rw [List.reverse_eq_nil_iff] at h2
  exact dropWhile_append_keep jsIsWhiteSpace 'E' (by decide) rest.reverse h2

/-- The text of a formatted result that is flagged as an error begins with
the letter E. -/
theorem formatResult_error_text (logPrefix : String) (w : World) (r : RawResult)
    (h : (formatResult logPrefix w r).isError = true) :
    ∃ rest, (formatResult logPrefix w r).content =
      [{ type := "text", text := String.mk ('E' :: rest) }] := by
  by_cases h0 : truthy r.error = true
  · refine ⟨("rror executing Claude Code: " ++ r.error.getD "" ++ "\n\n" ++ r.stderr).toList, ?_⟩
    unfold formatResult
    rw [if_pos h0]
    rfl
  · exfalso
    unfold formatResult at h
    rw [if_neg h0] at h
    by_cases h1 : jsTrim r.stdout = ""
    · rw [if_pos h1] at h
      by_cases h2 : logPrefix = "code-editor"
      · rw [if_pos h2] at h
        exact Bool.noConfusion h
      · rw [if_neg h2] at h
        exact Bool.noConfusion h
    · rw [if_neg h1] at h
      exact Bool.noConfusion h

/-- The text of an error result of `executeClaudeCli` begins with the letter
E. -/
theorem error_result_text (o : Options) (w : World)
    (h : (executeClaudeCli o w).result.isError = true) :
    ∃ rest, (executeClaudeCli o w).result.content =
      [{ type := "text", text := String.mk ('E' :: rest) }] := by
  cases hb : buildCommand (userDirectory w) (claudePath w) o.prompt o.command
    (o.allowedTools.getD []) with
  | error e =>
      exact ⟨("rror: " ++ errorText e).toList, by
        simp only [executeClaudeCli, hb, caughtResult]
        rfl⟩
  | ok cmd =>
      cases hs : w.spawnThrows with
      | some e =>
          exact ⟨("rror: " ++ errorText e).toList, by
            simp only [executeClaudeCli, hb, hs, caughtResult]
            rfl⟩
      | none =>
          simp only [executeClaudeCli, hb, hs] at h ⊢
          exact formatResult_error_text _ _ _ h

/-- An error result of `executeClaudeCli` passes the test of a valid
summary. -/
theorem isValidSummary_of_error (o : Options) (w : World)
    (h : (executeClaudeCli o w).result.isError = true) :
    codeEditorTool.isValidSummary (executeClaudeCli o w).result = true := by
  obtain ⟨rest, hc⟩ := error_result_text o w h
  unfold codeEditorTool.isValidSummary
  rw [hc]
  simp only [Bool.and_eq_true, bne_iff_ne, ne_eq]
  refine ⟨?_, jsTrim_of_E rest⟩
  intro he
  have := congrArg String.data he
  simp at this

/-- When the edit run returns the "(no content)" result and the summary run
returns an error result, the handler returns the error result of the summary
run. -/
theorem codeEditor_returns_failed_summary (args : CodeEditorArgs) (w1 w2 : World)
    (hfile : truthy args.filePath = true) (htask : truthy args.task = true)
    (hedit : codeEditorTool.isNoContent
      (executeClaudeCli (codeEditorTool.editOptions args) w1).result = true)
    (hfail : (executeClaudeCli codeEditorTool.summaryOptions w2).result.isError = true) :
    (codeEditorTool.handler args w1 w2).result =
      (executeClaudeCli codeEditorTool.summaryOptions w2).result := by
  unfold codeEditorTool.handler
  simp only [hfile, htask, hedit, isValidSummary_of_error _ _ hfail, Bool.not_true,
    Bool.or_self, Bool.false_eq_true, if_false, if_true]

set_option maxRecDepth 20000 in
/-- C23 (the code at a failing input): the edit of "src/a.js" exits with
code 0 and writes nothing, so the edit run returns the "(no content)"
result; the summary run writes "No conversation found to continue" on stderr
and exits with code 1.  The handler returns the error result of the summary
run, with `isError = true`, and not the fallback result. -/
theorem C23_failed_summary_is_returned :
    codeEditorTool.isNoContent
      (executeClaudeCli
        (codeEditorTool.editOptions { filePath := some "src/a.js", task := some "Rename f to g" })
        { beforeDeadline := [.close (some 0)] }).result = true ∧
    (codeEditorTool.handler { filePath := some "src/a.js", task := some "Rename f to g" }
        { beforeDeadline := [.close (some 0)] }
        { beforeDeadline := [.stderrData "No conversation found to continue",
                             .close (some 1)] }).result =
      { content := [{ type := "text",
                      text := "Error executing Claude Code: Process exited with code 1\n\nNo conversation found to continue" }],
        isError := true,
        metadata := none } := by
  have hedit := edit_noContent { filePath := some "src/a.js", task := some "Rename f to g" }
    { beforeDeadline := [.close (some 0)] } [] [] rfl rfl (by simp) (by decide)
  have hsum : (executeClaudeCli codeEditorTool.summaryOptions
      { beforeDeadline := [.stderrData "No conversation found to continue",
                           .close (some 1)] }).result =
      { content := [{ type := "text",
                      text := "Error executing Claude Code: Process exited with code 1\n\nNo conversation found to continue" }],
        isError := true,
        metadata := none } := by decide
  have hno : codeEditorTool.isNoContent
      (executeClaudeCli
        (codeEditorTool.editOptions { filePath := some "src/a.js", task := some "Rename f to g" })
        { beforeDeadline := [.close (some 0)] }).result = true := by
    rw [hedit]
    rfl
  refine ⟨hno, ?_⟩
  rw [codeEditor_returns_failed_summary
    { filePath := some "src/a.js", task := some "Rename f to g" }
    { beforeDeadline := [.close (some 0)] }
    { beforeDeadline := [.stderrData "No conversation found to continue", .close (some 1)] }
    rfl rfl hno (by rw [hsum]), hsum]

/-- C27 (the code at a failing input): for the task "Use $& here" and the
file "src/a.js" the prompt of the edit run is the template filled in with the
task "Use {{TASK}} here", in which `$&` has become the placeholder; it is not
the template filled in with the task as given, whatever texts stand for the
file path and the code context. -/
theorem C27_dollar_pattern_in_task :
    (codeEditorTool.editOptions { filePath := some "src/a.js", task := some "Use $& here" }).prompt =
      some (verbatimPrompt "Use \x7b\x7bTASK\x7d\x7d here" "@src/a.js" "") ∧
    ∀ filePath codeContext : String,
      (codeEditorTool.editOptions { filePath := some "src/a.js", task := some "Use $& here" }).prompt ≠
        some (verbatimPrompt "Use $& here" filePath codeContext) := by
  have e1 : formatClaudeCodePath "src/a.js" = "@src/a.js" := by decide
  have e2 : codeEditorTool.contextOf { filePath := some "src/a.js", task := some "Use $& here" }
      = "" := by decide
  have hp : (codeEditorTool.editOptions
      { filePath := some "src/a.js", task := some "Use $& here" }).prompt =
      some (verbatimPrompt "Use \x7b\x7bTASK\x7d\x7d here" "@src/a.js" "") := by
    show some (codeEditorTool.formattedPrompt "Use $& here" (formatClaudeCodePath "src/a.js")
      (codeEditorTool.contextOf { filePath := some "src/a.js", task := some "Use $& here" })) = _
    rw [e1, e2, formattedPrompt_dollar_ampersand]
  refine ⟨hp, ?_⟩
  intro filePath codeContext h
  rw [hp] at h
  have hd := congrArg String.data (Option.some.inj h)
  unfold verbatimPrompt at hd
  simp only [String.data_append, List.append_assoc] at hd
  have h5 := congrArg (List.take 5) (List.append_cancel_left hd)
  exact absurd h5 (by
    show ¬ (['U', 's', 'e', ' ', Char.ofNat 123] = ['U', 's', 'e', ' ', '$'])
    decide)

end ClaudeOrchestrator
